import Mathlib

/-!
Verification of the combat-session / grappling engine and the anatomical
damage & condition engine of the `gelatinous` repository.

Shallow embedding conventions:
* Characters are identified by their database reference number (`dbref`),
  modelled as `Nat`.  A combatant entry stores the character object under
  `"char"` and stores links to other characters as dbrefs; since two distinct
  live characters never share a dbref, both are modelled by the dbref.
* The game database is modelled by `World`: the list of resolvable character
  dbrefs, each character's location, proximity set, and the character-level
  predicates the combat bookkeeping consults (dead, unconscious, ranged
  weapon).  `evennia.search_object` by dbref becomes a lookup in
  `World.chars`.
* Random rolls (`random.randint`) are injected as explicit arguments.
* Messaging / debug-channel calls have no effect on the modelled state and
  are dropped.
-/

/-- A combatant entry: one dict per character in a combat handler's
`db.combatants` list (`world/combat/utils.py`, `add_combatant`). -/
structure Entry where
  char : Nat
  target_dbref : Option Nat := none
  grappling_dbref : Option Nat := none
  grappled_by_dbref : Option Nat := none
  is_yielding : Bool := false
  combat_action : Option String := none
  initiated_combat : Bool := false
deriving Repr, DecidableEq

/-- The part of the game world outside the combatants list that the combat
code consults: which dbrefs resolve to live characters, their locations,
proximity sets (`char.ndb.in_proximity_with`), and per-character predicates. -/
structure World where
  chars : List Nat
  location : Nat → Nat := fun _ => 0
  prox : Nat → List Nat := fun _ => []
  isDead : Nat → Bool := fun _ => false
  isUnconscious : Nat → Bool := fun _ => false
  isRanged : Nat → Bool := fun _ => false

/-- `get_character_dbref` (both modules): `char.id` for a live reference. -/
def get_character_dbref (c : Option Nat) : Option Nat := c

namespace grappling

/-- `grappling.get_character_by_dbref`: `if not dbref: return None`, then
`search_object(f"#{dbref}")`.  A dbref of `0` is falsy in Python. -/
def get_character_by_dbref (w : World) (dbref : Option Nat) : Option Nat :=
  match dbref with
  | none => none
  | some d => if d = 0 then none else if d ∈ w.chars then some d else none

end grappling

namespace combat_utils

/-- `utils.get_character_by_dbref`: `if dbref is None: return None`, then
`search_object(f"#{dbref}")[0]` with `IndexError` handled. -/
def get_character_by_dbref (w : World) (dbref : Option Nat) : Option Nat :=
  match dbref with
  | none => none
  | some d => if d ∈ w.chars then some d else none

end combat_utils

/-- `next((e for e in combatants_list if e.get("char") == char), None)`. -/
def findEntry (s : List Entry) (c : Nat) : Option Entry :=
  s.find? (fun e => e.char == c)

/-- Update the (unique) entry of character `c` in place, as Python does when
it mutates the dict found for `c` inside the combatants list. -/
def upd (s : List Entry) (c : Nat) (f : Entry → Entry) : List Entry :=
  s.map (fun e => if e.char = c then f e else e)

namespace grappling

/-- `establish_grapple(combat_handler, grappler, victim)`
(`world/combat/grappling.py`): returns `(success, message)`; here the message
is dropped and the updated combatants list is returned alongside success. -/
def establish_grapple (w : World) (s : List Entry) (grappler victim : Nat) :
    Bool × List Entry :=
  if grappler = victim then (false, s)
  else
    match findEntry s grappler, findEntry s victim with
    | some ge, some ve =>
      -- already grappling someone (only blocks when the dbref resolves)
      if (ge.grappling_dbref.isSome ∧
          (get_character_by_dbref w ge.grappling_dbref).isSome) then (false, s)
      else if (ve.grappled_by_dbref.isSome ∧
          (get_character_by_dbref w ve.grappled_by_dbref).isSome) then (false, s)
      else
        (true, s.map (fun e =>
          if e.char = grappler then
            { e with grappling_dbref := some victim, is_yielding := true }
          else if e.char = victim then
            { e with grappled_by_dbref := some grappler, is_yielding := true }
          else e))
    | _, _ => (false, s)

/-- `break_grapple(combat_handler, grappler=None, victim=None)`: clears the
grappler's outgoing link and/or the victim's incoming link. -/
def break_grapple (s : List Entry) (grappler victim : Option Nat) :
    Bool × List Entry :=
  if grappler = none ∧ victim = none then (false, s)
  else
    let s2 := s.map (fun e =>
      let e1 := match grappler with
        | some g =>
          if e.char = g ∧ e.grappling_dbref ≠ none then
            { e with grappling_dbref := none }
          else e
        | none => e
      match victim with
      | some v =>
        if e1.char = v ∧ e1.grappled_by_dbref ≠ none then
          { e1 with grappled_by_dbref := none }
        else e1
      | none => e1)
    let broke :=
      (s.any (fun e => grappler = some e.char ∧ e.grappling_dbref ≠ none)) ∨
      (s.any (fun e => victim = some e.char ∧ e.grappled_by_dbref ≠ none))
    (broke, s2)

/-- The grappling-target half of the `cleanup_invalid_grapples` loop body:
clears the outgoing link when its target no longer resolves or is in a
different location.  (Every character object has a `location` attribute in
the model.) -/
def cleanup_grappling_check (w : World) (e : Entry) : Entry :=
  match e.grappling_dbref with
  | none => e
  | some _ =>
    match get_character_by_dbref w e.grappling_dbref with
    | none => { e with grappling_dbref := none }
    | some t =>
      if w.location t ≠ w.location e.char then
        { e with grappling_dbref := none }
      else e

/-- The grappled-by half of the `cleanup_invalid_grapples` loop body. -/
def cleanup_grappled_by_check (w : World) (e : Entry) : Entry :=
  match e.grappled_by_dbref with
  | none => e
  | some _ =>
    match get_character_by_dbref w e.grappled_by_dbref with
    | none => { e with grappled_by_dbref := none }
    | some g =>
      if w.location g ≠ w.location e.char then
        { e with grappled_by_dbref := none }
      else e

/-- `cleanup_invalid_grapples(combat_handler)`: both checks applied to every
entry in place (the second check reads the entry as left by the first). -/
def cleanup_invalid_grapples (w : World) (s : List Entry) : List Entry :=
  s.map (fun e => cleanup_grappled_by_check w (cleanup_grappling_check w e))

/-- `resolve_grapple_initiate(char_entry, combatants_list, handler)`.
`handler.get_target_obj` resolves the entry's `target_dbref` through the
database (as `utils.get_combatant_target` does).  The two `randint` rolls are
injected as `attacker_roll` and `defender_roll`. -/
def resolve_grapple_initiate (w : World) (a : Nat)
    (attacker_roll defender_roll : Nat) (s : List Entry) : List Entry :=
  match findEntry s a with
  | none => s
  | some ae =>
    match combat_utils.get_character_by_dbref w ae.target_dbref with
    | none => s
    | some t =>
      match findEntry s t with
      | none => s
      | some _ =>
        if t ∈ w.prox a then
          if attacker_roll > defender_roll then
            let s1 := upd s a (fun e => { e with grappling_dbref := some t })
            let s2 := upd s1 t (fun e => { e with grappled_by_dbref := some a })
            let s3 := upd s2 t (fun e => { e with target_dbref := some a })
            upd s3 a (fun e => { e with is_yielding := true })
          else
            if ae.initiated_combat then
              let s1 := upd s a (fun e => { e with is_yielding := true })
              upd s1 t (fun e => { e with is_yielding := true })
            else s
        else s

/-- `resolve_grapple_join(char_entry, combatants_list, handler)`: contest
between the challenger and the target's current grappler. -/
def resolve_grapple_join (w : World) (a : Nat)
    (new_grappler_roll current_grappler_roll : Nat) (s : List Entry) :
    List Entry :=
  match findEntry s a with
  | none => s
  | some ae =>
    match combat_utils.get_character_by_dbref w ae.target_dbref with
    | none => s
    | some t =>
      match findEntry s t with
      | none => s
      | some te =>
        if te.grappled_by_dbref = none then s
        else
          match grappling.get_character_by_dbref w te.grappled_by_dbref with
          | none => s
          | some g =>
            match findEntry s g with
            | none => s
            | some _ =>
              if t ∈ w.prox a then
                if new_grappler_roll > current_grappler_roll then
                  let s1 := upd s a (fun e =>
                    { e with grappling_dbref := some t, is_yielding := true })
                  let s2 := upd s1 g (fun e =>
                    { e with grappling_dbref := none })
                  upd s2 t (fun e => { e with grappled_by_dbref := some a })
                else
                  if ae.initiated_combat then
                    upd s a (fun e => { e with is_yielding := true })
                  else s
              else s

/-- `resolve_release_grapple(char_entry, combatants_list, handler)`: always
succeeds once the guards pass; clears both directions of the link and touches
nothing else. -/
def resolve_release_grapple (w : World) (a : Nat) (s : List Entry) :
    List Entry :=
  match findEntry s a with
  | none => s
  | some ae =>
    match grappling.get_character_by_dbref w ae.grappling_dbref with
    | none => s
    | some v =>
      match findEntry s v with
      | none => s
      | some _ =>
        let s1 := upd s a (fun e => { e with grappling_dbref := none })
        upd s1 v (fun e => { e with grappled_by_dbref := none })

/-- One iteration of the `for i, entry in enumerate(combatants_list)` loop of
`validate_and_cleanup_grapple_state`.  `entry` is read once at the start of
the iteration; both the grappling half and the grappled-by half build their
replacement entries as `dict(entry)` from that snapshot (so a clear performed
by the first half at index `i` is overwritten if the second half also writes
index `i`, exactly as in the source), while cross-reference lookups read the
current list. -/
def validate_entry_pass (w : World) (valid_chars : List Nat) (s : List Entry)
    (i : Nat) : List Entry :=
  match s.get? i with
  | none => s
  | some e =>
    let s1 :=
      match e.grappling_dbref with
      | none => s
      | some _ =>
        match get_character_by_dbref w e.grappling_dbref with
        | none => s.set i { e with grappling_dbref := none }
        | some gt =>
          if gt = e.char then s.set i { e with grappling_dbref := none }
          else if gt ∉ valid_chars then s.set i { e with grappling_dbref := none }
          else
            match s.findIdx? (fun x => x.char == gt) with
            | none => s
            | some j =>
              match s.get? j with
              | none => s
              | some te =>
                if te.grappled_by_dbref ≠ some e.char then
                  s.set j { te with grappled_by_dbref := some e.char }
                else s
    match e.grappled_by_dbref with
    | none => s1
    | some _ =>
      match get_character_by_dbref w e.grappled_by_dbref with
      | none => s1.set i { e with grappled_by_dbref := none }
      | some gr =>
        if gr = e.char then s1.set i { e with grappled_by_dbref := none }
        else if gr ∉ valid_chars then s1.set i { e with grappled_by_dbref := none }
        else
          match s1.findIdx? (fun x => x.char == gr) with
          | none => s1
          | some j =>
            match s1.get? j with
            | none => s1
            | some ge =>
              if ge.grappling_dbref ≠ some e.char then
                s1.set j { ge with grappling_dbref := some e.char }
              else s1

/-- `validate_and_cleanup_grapple_state(handler)`: the repair pass.  The set
of valid in-combat characters is computed once from the initial list; the
loop then walks the indices of the (mutating) combatants list. -/
def validate_and_cleanup_grapple_state (w : World) (s : List Entry) :
    List Entry :=
  let valid_chars := s.map (·.char)
  (List.range s.length).foldl (validate_entry_pass w valid_chars) s

end grappling

/-- The grapple cross-reference symmetry invariant of the spec: for any two
entries A and B of a session, `A.grappling == B ⇔ B.grappled_by == A`. -/
def grappleSymmetric (s : List Entry) : Prop :=
  ∀ a ∈ s, ∀ b ∈ s,
    (a.grappling_dbref = some b.char ↔ b.grappled_by_dbref = some a.char)

instance (s : List Entry) : Decidable (grappleSymmetric s) := by
  unfold grappleSymmetric; infer_instance

namespace combat_utils

/-- `cleanup_combatant_state(char, entry, handler)` restricted to the
combatants list: resolves the entry's two grapple links and breaks each
through `break_grapple`.  (Proximity sets, aim state and `override_place`
live outside the combatants list and are not part of the modelled state.) -/
def cleanup_combatant_state (w : World) (s : List Entry) (c : Nat) (e : Entry) :
    List Entry :=
  let grap_obj := get_character_by_dbref w e.grappling_dbref
  let grappled_by_obj := get_character_by_dbref w e.grappled_by_dbref
  let s1 := match grap_obj with
    | some v => (grappling.break_grapple s (some c) (some v)).2
    | none => s
  match grappled_by_obj with
  | some g => (grappling.break_grapple s1 (some g) (some c)).2
  | none => s1

/-- One iteration of the auto-retargeting loop in `remove_combatant`: if the
entry at index `i` was targeting the removed character, its target is
cleared and a replacement target is chosen among characters actively
attacking it (melee wielders prefer attackers in proximity). -/
def auto_retarget_at (w : World) (removed : Nat) (s : List Entry) (i : Nat) :
    List Entry :=
  match s.get? i with
  | none => s
  | some oe =>
    if oe.target_dbref = some removed then
      let s1 := s.set i { oe with target_dbref := none }
      let oc := oe.char
      let cands := (s1.filter (fun pe =>
          pe.char ≠ oc ∧ pe.char ≠ removed ∧
          ¬ w.isDead pe.char = true ∧ ¬ w.isUnconscious pe.char = true ∧
          pe.target_dbref = some oc)).map (·.char)
      let proxCands := cands.filter (fun x => x ∈ w.prox oc)
      let newTarget :=
        if w.isRanged oc then cands.head?
        else match proxCands.head? with
          | some x => some x
          | none => cands.head?
      match newTarget with
      | none => s1
      | some nt =>
        upd s1 oc (fun e =>
          { e with target_dbref := some nt, combat_action := none,
                   is_yielding := false })
    else s

/-- `remove_combatant(handler, char)`: tears down the character's state,
clears and retargets other combatants pointing at it, then filters it out of
the roster.  A character with no entry is a no-op (early return). -/
def remove_combatant (w : World) (s : List Entry) (c : Nat) : List Entry :=
  match findEntry s c with
  | none => s
  | some e =>
    let s1 := cleanup_combatant_state w s c e
    let s2 := (List.range s1.length).foldl (auto_retarget_at w c) s1
    s2.filter (fun x => x.char ≠ c)

/-- `detect_and_remove_orphaned_combatants(handler)`: a combatant with no
target, no grapple link in either direction, and not targeted by anyone (the
yielding flag is deliberately not consulted) is orphaned and removed.
Returns the orphan list together with the final roster. -/
def detect_and_remove_orphaned_combatants (w : World) (s : List Entry) :
    List Nat × List Entry :=
  if s.isEmpty then ([], s)
  else
    let targeted := s.filterMap (·.target_dbref)
    let orphans := (s.filter (fun e =>
        e.target_dbref = none ∧ e.grappling_dbref = none ∧
        e.grappled_by_dbref = none ∧ e.char ∉ targeted)).map (·.char)
    (orphans, orphans.foldl (remove_combatant w) s)

end combat_utils

/-! ## Medical system (`world/medical/`)

`world/medical/constants.py` (the `ORGANS`, `HIT_WEIGHTS`,
`BLOOD_LOSS_PER_SEVERITY` and `BLEEDING_DAMAGE_THRESHOLDS` tables) and
`world/medical/core.py` (the `Organ` and `MedicalState` classes) are not part
of the sources; the tables are carried as an explicit configuration
parameter and the `MedicalState` primitives are modelled from the spec. -/

namespace medical

/-- One row of the static `ORGANS` table: organ name, its containing body
location (`container`) and its rarity category (`hit_weight`). -/
structure OrganDef where
  name : String
  container : String
  hit_weight : String := "common"
deriving Repr, DecidableEq

/-- Modelled from the spec: the static tables of `world/medical/constants.py`
(not in the sources).  `organs` maps body locations to contained organs,
`hit_weights` maps rarity categories to selection weights, and the remaining
fields are the severity/threshold tables used by the condition engine. -/
structure MedCfg where
  organs : List OrganDef
  hit_weights : List (String × Nat)
  blood_loss_per_severity : List (Int × Nat) := []
  bleeding_damage_thresholds : List (String × Nat) := []

/-- `table.get(key, default)` for a string-keyed table. -/
def tableGetS (t : List (String × Nat)) (k : String) (d : Nat) : Nat :=
  ((t.find? (fun p => p.1 == k)).map (·.2)).getD d

/-- `table.get(key, default)` for an integer-keyed table. -/
def tableGetI (t : List (Int × Nat)) (k : Int) (d : Nat) : Nat :=
  ((t.find? (fun p => p.1 == k)).map (·.2)).getD d

/-- Modelled from the spec: an organ of `world/medical/core.py` (not in the
sources) — current and maximum hit points, current HP clamped to
`[0, max]`; an organ at 0 HP is destroyed. -/
structure Organ where
  current_hp : Int
  max_hp : Int
deriving Repr, DecidableEq

/-- Modelled from the spec: `Organ.is_destroyed` — an organ at 0 HP is
"destroyed" and excluded from future damage distribution. -/
def Organ.is_destroyed (o : Organ) : Bool := o.current_hp ≤ 0

/-- The Python classes `MedicalCondition`, `BleedingCondition`,
`PainCondition` and `InfectionCondition` (`world/medical/conditions.py`) are
modelled as one record tagged with the runtime class; `blood_loss_rate` is
only meaningful on the bleeding class.  (The infection-only fields
`last_progression_check` and `environmental_modifier` are wall-clock/float
state not used by any claim.) -/
inductive CondClass
  | base
  | bleeding
  | pain
  | infection
deriving Repr, DecidableEq

structure MedicalCondition where
  cls : CondClass
  condition_type : String
  severity : Int
  max_severity : Int
  location : Option String
  tick_interval : Int
  requires_ticker : Bool
  treated : Bool
  blood_loss_rate : Nat := 0
deriving Repr, DecidableEq

/-- `MedicalCondition.__init__(condition_type, severity, location=None,
tick_interval=60)`: `max_severity` tracks the original severity. -/
def MedicalCondition.init (condition_type : String) (severity : Int)
    (location : Option String := none) (tick_interval : Int := 60) :
    MedicalCondition :=
  { cls := .base, condition_type := condition_type, severity := severity,
    max_severity := severity, location := location,
    tick_interval := tick_interval, requires_ticker := true, treated := false }

/-- `BleedingCondition.__init__(severity, location=None)`: condition type
`"minor_bleeding"`, tick interval 60, blood-loss rate
`BLOOD_LOSS_PER_SEVERITY.get(severity, 1)`. -/
def BleedingCondition.init (cfg : MedCfg) (severity : Int)
    (location : Option String := none) : MedicalCondition :=
  { MedicalCondition.init "minor_bleeding" severity location 60 with
      cls := .bleeding,
      blood_loss_rate := tableGetI cfg.blood_loss_per_severity severity 1 }

/-- `PainCondition.__init__(severity, location=None)`: type `"pain"`,
tick interval 120. -/
def PainCondition.init (severity : Int) (location : Option String := none) :
    MedicalCondition :=
  { MedicalCondition.init "pain" severity location 120 with cls := .pain }

/-- `InfectionCondition.__init__(severity, location=None)`: type
`"infection"`, tick interval 300. -/
def InfectionCondition.init (severity : Int)
    (location : Option String := none) : MedicalCondition :=
  { MedicalCondition.init "infection" severity location 300 with
      cls := .infection }

/-- The persisted mapping produced by `to_dict`.  Every field is optional so
that the `data.get(key, default)` lookups of `from_dict` can be mirrored
faithfully on arbitrary inputs. -/
structure CondData where
  condition_type : Option String := none
  severity : Option Int := none
  max_severity : Option Int := none
  location : Option String := none
  tick_interval : Option Int := none
  requires_ticker : Option Bool := none
  treated : Option Bool := none
  blood_loss_rate : Option Nat := none
deriving Repr, DecidableEq

/-- `MedicalCondition.to_dict`: serializes the seven base fields. -/
def MedicalCondition.to_dict (c : MedicalCondition) : CondData :=
  { condition_type := some c.condition_type, severity := some c.severity,
    max_severity := some c.max_severity, location := c.location,
    tick_interval := some c.tick_interval,
    requires_ticker := some c.requires_ticker, treated := some c.treated }

/-- `BleedingCondition.to_dict`: the base dict plus `blood_loss_rate`. -/
def BleedingCondition.to_dict (c : MedicalCondition) : CondData :=
  { MedicalCondition.to_dict c with blood_loss_rate := some c.blood_loss_rate }

/-- The call `cls(condition_type, severity, location)` performed by the
inherited classmethod `MedicalCondition.from_dict` with three positional
arguments.  Python checks the argument count against the receiving class's
`__init__`: the base class accepts `(condition_type, severity, location=None,
tick_interval=60)` and constructs; each subclass's `__init__` accepts only
`(severity, location=None)`, so the three-argument call raises `TypeError`
(modelled as `none`). -/
def classInit3 (cls : CondClass) (condition_type : String) (severity : Int)
    (location : Option String) : Option MedicalCondition :=
  match cls with
  | .base => some (MedicalCondition.init condition_type severity location)
  | .bleeding => none
  | .pain => none
  | .infection => none

/-- `MedicalCondition.from_dict(data)` as inherited by class `cls`:
constructs via `cls(condition_type, severity, location)` and then overwrites
`max_severity`, `tick_interval`, `requires_ticker` and `treated` from the
data, with the source's `.get` defaults. -/
def MedicalCondition.from_dict (cls : CondClass) (data : CondData) :
    Option MedicalCondition :=
  (classInit3 cls (data.condition_type.getD "unknown") (data.severity.getD 1)
      data.location).map (fun c =>
    { c with max_severity := data.max_severity.getD c.severity,
             tick_interval := data.tick_interval.getD 60,
             requires_ticker := data.requires_ticker.getD true,
             treated := data.treated.getD false })

/-- `PainCondition.from_dict` is the inherited base classmethod with
`cls = PainCondition`. -/
def PainCondition.from_dict (data : CondData) : Option MedicalCondition :=
  MedicalCondition.from_dict .pain data

/-- `InfectionCondition.from_dict` is the inherited base classmethod with
`cls = InfectionCondition`. -/
def InfectionCondition.from_dict (data : CondData) : Option MedicalCondition :=
  MedicalCondition.from_dict .infection data

/-- `BleedingCondition.from_dict(data)`: the overriding classmethod, which
constructs via `cls(severity, location)` (matching arity) and restores the
persisted fields including `blood_loss_rate`. -/
def BleedingCondition.from_dict (cfg : MedCfg) (data : CondData) :
    Option MedicalCondition :=
  let c := BleedingCondition.init cfg (data.severity.getD 1) data.location
  some { c with max_severity := data.max_severity.getD c.severity,
                tick_interval := data.tick_interval.getD 60,
                requires_ticker := data.requires_ticker.getD true,
                treated := data.treated.getD false,
                blood_loss_rate := data.blood_loss_rate.getD c.blood_loss_rate }

/-- `BleedingCondition.tick_effect(character)`: the character's blood level
is lowered by the condition's blood-loss rate (`int(rate * 0.3)` when
treated, modelled as the exact floor `3 * rate / 10`), floored at 0; an
untreated condition then self-heals one severity step when the injected
`random.randint(1, 100)` roll is at most 10.  Returns the updated condition
and the new blood level. -/
def BleedingCondition.tick_effect (c : MedicalCondition) (blood_level : Int)
    (heal_roll : Nat) : MedicalCondition × Int :=
  let blood_loss : Nat :=
    if c.treated then 3 * c.blood_loss_rate / 10 else c.blood_loss_rate
  let newBlood := max 0 (blood_level - blood_loss)
  let c2 :=
    if ¬ c.treated ∧ heal_roll ≤ 10 then
      { c with severity := max 0 (c.severity - 1) }
    else c
  (c2, newBlood)

/-- `get_pain_contribution`: 0 for the base and infection classes,
`max(1, severity // 2)` for bleeding, the full severity for pain. -/
def MedicalCondition.get_pain_contribution (c : MedicalCondition) : Int :=
  match c.cls with
  | .bleeding => max 1 (c.severity / 2)
  | .pain => c.severity
  | _ => 0

/-- `create_condition_from_damage(damage_amount, damage_type, location)`
(`world/medical/conditions.py`): bleeding for damage at or above the "minor"
threshold, pain for any damage, and a 25% infection chance for penetrating
damage of at least 8.  The two `random.randint` draws (the percent roll and
the infection severity `randint(1, 3)`) are injected. -/
def create_condition_from_damage (cfg : MedCfg) (pct_roll inf_sev : Nat)
    (damage_amount : Nat) (damage_type : String)
    (location : Option String := none) : List MedicalCondition :=
  let threshold := tableGetS cfg.bleeding_damage_thresholds "minor" 5
  let l1 : List MedicalCondition :=
    if damage_amount ≥ threshold then
      [BleedingCondition.init cfg
        (min 10 (max 1 ((damage_amount : Int) / 3))) location]
    else []
  let l2 : List MedicalCondition :=
    if damage_amount > 0 then
      l1 ++ [PainCondition.init (min 8 (max 1 ((damage_amount : Int) / 2)))
              location]
    else l1
  if (damage_type = "bullet" ∨ damage_type = "blade" ∨ damage_type = "pierce")
      ∧ damage_amount ≥ 8 ∧ pct_roll ≤ 25 then
    l2 ++ [InfectionCondition.init (inf_sev : Int) location]
  else l2

/-- Modelled from the spec: the per-character `MedicalState` aggregate of
`world/medical/core.py` (not in the sources) — organ health map, blood
level, pain level, consciousness and the active condition list.  Blood level
and consciousness are percentages at integer granularity. -/
structure MedicalState where
  organs : List (String × Organ)
  blood_level : Int := 100
  pain_level : Int := 0
  consciousness : Int := 100
  conditions : List MedicalCondition := []
deriving Repr, DecidableEq

/-- Modelled from the spec: `MedicalState.get_organ` — the stored organ, or
a full-health placeholder when the organ was never damaged. -/
def MedicalState.get_organ (ms : MedicalState) (name : String) : Organ :=
  (((ms.organs.find? (fun p => p.1 == name)).map (·.2)).getD
    { current_hp := 1, max_hp := 1 })

/-- `get_organ_by_body_location(location)` (`world/medical/utils.py`): names
of the organs whose `container` is the location, in table order. -/
def get_organ_by_body_location (cfg : MedCfg) (location : String) :
    List String :=
  (cfg.organs.filter (fun o => o.container == location)).map (·.name)

/-- `calculate_hit_weights_for_location(location)`: each organ's rarity
category looked up in `HIT_WEIGHTS` with the `"common"` weight as default. -/
def calculate_hit_weights_for_location (cfg : MedCfg) (location : String) :
    List (String × Nat) :=
  (get_organ_by_body_location cfg location).map (fun n =>
    let cat := (((cfg.organs.find? (fun o => o.name == n)).map
        (·.hit_weight)).getD "common")
    (n, tableGetS cfg.hit_weights cat
          (tableGetS cfg.hit_weights "common" 0)))

/-- The functional (non-destroyed) organ filter of
`distribute_damage_to_organs`, in table order. -/
def functional_organs (cfg : MedCfg) (ms : MedicalState) (location : String) :
    List String :=
  (get_organ_by_body_location cfg location).filter
    (fun n => ¬ (ms.get_organ n).is_destroyed)

/-- `hit_weights.get(organ_name, 0)`: the per-organ lookup that
`distribute_damage_to_organs` performs in the result of
`calculate_hit_weights_for_location`. -/
def organ_weight (cfg : MedCfg) (location : String) (n : String) : Nat :=
  ((((calculate_hit_weights_for_location cfg location).find?
      (fun p => p.1 == n)).map (·.2)).getD 0)

/-- The `total_weight` of `distribute_damage_to_organs`, recomputed over the
functional organs only. -/
def functional_weight (cfg : MedCfg) (ms : MedicalState) (location : String) :
    Nat :=
  ((functional_organs cfg ms location).map (organ_weight cfg location)).sum

/-- The proportional branch of `distribute_damage_to_organs`: each functional
organ but the last receives `int((weight / total_weight) * total_damage)`
(Python evaluates this through floats; modelled as the exact floor
`weight * total_damage / total_weight`), the last receives the remainder. -/
def distribute_proportional (cfg : MedCfg) (location : String)
    (total_damage : Nat) (functional : List String) : List (String × Int) :=
  let total_weight := (functional.map (organ_weight cfg location)).sum
  if total_weight = 0 then []
  else
    let front := functional.dropLast.map (fun n =>
      (n, ((organ_weight cfg location n * total_damage / total_weight : Nat) :
        Int)))
    let remaining := (total_damage : Int) - (front.map (·.2)).sum
    front ++ [(functional.getLastD "", remaining)]

/-- `distribute_damage_to_organs(location, total_damage, medical_state,
injury_type, target_organ)` (`world/medical/utils.py`): all damage to a
still-functional explicitly-targeted organ, otherwise the proportional split
over the functional organs. -/
def distribute_damage_to_organs (cfg : MedCfg) (location : String)
    (total_damage : Nat) (ms : MedicalState)
    (target_organ : Option String := none) : List (String × Int) :=
  let organs := get_organ_by_body_location cfg location
  if organs.isEmpty then []
  else
    let functional := functional_organs cfg ms location
    if functional.isEmpty then []
    else
      match target_organ with
      | some t =>
        if t ∈ functional then [(t, (total_damage : Int))]
        else distribute_proportional cfg location total_damage functional
      | none => distribute_proportional cfg location total_damage functional

/-- Modelled from the spec: write an organ back into the health map. -/
def MedicalState.set_organ (ms : MedicalState) (name : String) (o : Organ) :
    MedicalState :=
  if (ms.organs.find? (fun p => p.1 == name)).isSome then
    { ms with organs := ms.organs.map (fun p =>
        if p.1 = name then (p.1, o) else p) }
  else
    { ms with organs := ms.organs ++ [(name, o)] }

/-- Modelled from the spec: `MedicalState.take_organ_damage(organ, amount,
injury_type)` of `world/medical/core.py` (not in the sources) — lowers the
organ's current HP, clamped to `[0, max]`, reports whether the organ was
thereby destroyed, and automatically creates the medical conditions for the
injury through `create_condition_from_damage` (per the note in
`world/medical/utils.py`).  `rnds` injects that function's random draws. -/
def MedicalState.take_organ_damage (cfg : MedCfg) (ms : MedicalState)
    (organ_name : String) (amount : Int) (injury_type : String)
    (rnds : Nat × Nat) : MedicalState × Bool :=
  let o := ms.get_organ organ_name
  let newHp := max 0 (min o.max_hp (o.current_hp - amount))
  let destroyed := decide (0 < o.current_hp ∧ newHp ≤ 0)
  let loc := (cfg.organs.find? (fun d => d.name == organ_name)).map
    (·.container)
  let conds := create_condition_from_damage cfg rnds.1 rnds.2 amount.toNat
    injury_type loc
  let ms1 := ms.set_organ organ_name { o with current_hp := newHp }
  ({ ms1 with conditions := ms1.conditions ++ conds }, destroyed)

/-- Modelled from the spec: `MedicalState.update_vital_signs` of
`world/medical/core.py` (not in the sources) — recomputes the derived pain
level as the sum of the active conditions' pain contributions. -/
def MedicalState.update_vital_signs (ms : MedicalState) : MedicalState :=
  { ms with pain_level :=
      (ms.conditions.map MedicalCondition.get_pain_contribution).sum }

/-- The result dict of `apply_anatomical_damage`.  The limb-lost dict of the
all-destroyed branch carries `limb_lost = True` and a message; the normal
result dict has neither key (`limb_lost := false`, `message := none`). -/
structure DamageResult where
  organs_damaged : List (String × Int)
  organs_destroyed : List String
  conditions_added : List MedicalCondition := []
  total_damage : Int
  location : String
  limb_lost : Bool := false
  message : Option String := none
deriving Repr, DecidableEq

/-- `apply_anatomical_damage(character, damage_amount, location, injury_type,
target_organ)` (`world/medical/utils.py`): distributes the damage over the
location's functional organs and applies it organ by organ.  When the
distribution is empty although the location defines organs (every organ
already destroyed), it returns the distinct limb-lost no-op result without
touching the medical state.  `rnd` injects the random draws of the i-th
damaged organ's condition creation. -/
def apply_anatomical_damage (cfg : MedCfg) (rnd : Nat → Nat × Nat)
    (ms : MedicalState) (damage_amount : Nat) (location : String)
    (injury_type : String := "generic")
    (target_organ : Option String := none) : MedicalState × DamageResult :=
  let damage_distribution :=
    distribute_damage_to_organs cfg location damage_amount ms target_organ
  if damage_distribution.isEmpty ∧
      ¬ (get_organ_by_body_location cfg location).isEmpty then
    (ms, { organs_damaged := [], organs_destroyed := [], total_damage := 0,
           location := location, limb_lost := true,
           message := some ("No damage applied - all organs in " ++ location
             ++ " are already destroyed") })
  else
    let step := fun (acc : MedicalState × List (String × Int) × List String
        × Nat) (p : String × Int) =>
      let (m, dmgd, dstr, i) := acc
      if p.2 > 0 then
        let (m2, was) := MedicalState.take_organ_damage cfg m p.1 p.2
          injury_type (rnd i)
        (m2, dmgd ++ [p], if was then dstr ++ [p.1] else dstr, i + 1)
      else (m, dmgd, dstr, i)
    let (msFinal, dmgd, dstr, _) :=
      damage_distribution.foldl step (ms, [], [], 0)
    (msFinal.update_vital_signs,
     { organs_damaged := dmgd, organs_destroyed := dstr,
       total_damage := (damage_amount : Int), location := location })

end medical

/-! ## General lemmas about the embedding -/

theorem entry_unique {s : List Entry} (hnd : (s.map Entry.char).Nodup)
    {a b : Entry} (ha : a ∈ s) (hb : b ∈ s) (h : a.char = b.char) : a = b :=
  List.inj_on_of_nodup_map hnd ha hb h

theorem findEntry_mem {s : List Entry} {c : Nat} {e : Entry}
    (h : findEntry s c = some e) : e ∈ s :=
  List.mem_of_find?_eq_some h

theorem findEntry_char {s : List Entry} {c : Nat} {e : Entry}
    (h : findEntry s c = some e) : e.char = c := by
  have h2 := List.find?_some h
  simpa using h2

theorem findEntry_eq_none {s : List Entry} {c : Nat} :
    findEntry s c = none ↔ ∀ e ∈ s, e.char ≠ c := by
  simp [findEntry, List.find?_eq_none]

theorem findEntry_upd_self (f : Entry → Entry) {s : List Entry} {c : Nat}
    (hf : ∀ x, (f x).char = x.char) {e : Entry} (h : findEntry s c = some e) :
    findEntry (upd s c f) c = some (f e) := by
  induction s with
  | nil => simp [findEntry] at h
  | cons x xs ih =>
    by_cases hx : x.char = c
    · rw [findEntry, List.find?_cons_of_pos _ (by simpa using hx)] at h
      cases h
      rw [upd, List.map_cons, if_pos hx, findEntry,
        List.find?_cons_of_pos _ (by simpa [hf] using hx)]
    · rw [findEntry, List.find?_cons_of_neg _ (by simpa using hx)] at h
      rw [upd, List.map_cons, if_neg hx, findEntry,
        List.find?_cons_of_neg _ (by simpa using hx)]
      exact ih h

theorem findEntry_upd_other (f : Entry → Entry) {s : List Entry} {c c2 : Nat}
    (hf : ∀ x, (f x).char = x.char) (hne : c2 ≠ c) :
    findEntry (upd s c f) c2 = findEntry s c2 := by
  induction s with
  | nil => rfl
  | cons x xs ih =>
    by_cases hx : x.char = c
    · have hx2 : ¬ x.char = c2 := by rw [hx]; exact fun h => hne h.symm
      rw [upd, List.map_cons, if_pos hx, findEntry,
        List.find?_cons_of_neg _ (by simp [hf, hx2]), findEntry,
        List.find?_cons_of_neg _ (by simpa using hx2)]
      exact ih
    · by_cases hx2 : x.char = c2
      · rw [upd, List.map_cons, if_neg hx, findEntry,
          List.find?_cons_of_pos _ (by simpa using hx2), findEntry,
          List.find?_cons_of_pos _ (by simpa using hx2)]
      · rw [upd, List.map_cons, if_neg hx, findEntry,
          List.find?_cons_of_neg _ (by simpa using hx2), findEntry,
          List.find?_cons_of_neg _ (by simpa using hx2)]
        exact ih

theorem upd_map_char {s : List Entry} {c : Nat} {f : Entry → Entry}
    (hf : ∀ x, (f x).char = x.char) :
    (upd s c f).map Entry.char = s.map Entry.char := by
  rw [upd, List.map_map]
  exact List.map_congr_left (fun e _ => by by_cases h : e.char = c <;>
    simp [h, hf])

theorem getLastD_mem {l : List String} {d : String} (h : l ≠ []) :
    l.getLastD d ∈ l := by
  induction l with
  | nil => simp at h
  | cons x xs ih =>
    cases xs with
    | nil => simp
    | cons y ys =>
      have h2 := ih (by simp)
      simp only [List.getLastD_cons] at *
      right
      exact h2

theorem set_get?_self {α : Type} (l : List α) (n : Nat) (a : α)
    (h : l.get? n = some a) : l.set n a = l := by
  induction l generalizing n with
  | nil => simp at h
  | cons x xs ih =>
    cases n with
    | zero => simp at h; simp [h]
    | succ m =>
      simp only [List.get?_cons_succ] at h
      simp only [List.set_cons_succ]
      rw [ih m h]

/-! ## Sample data for concrete witnesses -/

namespace medical

/-- A sample configuration: two chest organs of equal hit weight. -/
def cfg0 : MedCfg :=
  { organs := [⟨"heart", "chest", "rare"⟩, ⟨"left_lung", "chest", "rare"⟩],
    hit_weights := [("common", 50), ("rare", 10)],
    blood_loss_per_severity := [(4, 3)],
    bleeding_damage_thresholds := [("minor", 5)] }

/-- A sample state with both chest organs functional. -/
def ms0 : MedicalState :=
  { organs := [("heart", ⟨10, 10⟩), ("left_lung", ⟨10, 10⟩)] }

/-- A sample state with every chest organ destroyed. -/
def msDestroyed : MedicalState :=
  { organs := [("heart", ⟨0, 10⟩), ("left_lung", ⟨0, 10⟩)] }

/-! ### Lemmas about damage distribution -/

theorem distribute_proportional_sum (cfg : MedCfg) (location : String)
    (D : Nat) (functional : List String)
    (hW : (functional.map (organ_weight cfg location)).sum ≠ 0) :
    ((distribute_proportional cfg location D functional).map (·.2)).sum
      = (D : Int) := by
  simp only [distribute_proportional]
  rw [if_neg hW]
  simp only [List.map_append, List.sum_append, List.map_map, List.map_cons,
    List.map_nil, List.sum_cons, List.sum_nil]
  omega

theorem dropLast_append_getLastD {l : List String} {d : String} (h : l ≠ []) :
    l.dropLast ++ [l.getLastD d] = l := by
  induction l with
  | nil => simp at h
  | cons x xs ih =>
    cases xs with
    | nil => rfl
    | cons y ys =>
      have h2 := ih (by simp)
      simpa using h2

theorem distribute_proportional_keys (cfg : MedCfg) (location : String)
    (D : Nat) (functional : List String) (hne : functional ≠ [])
    (hW : (functional.map (organ_weight cfg location)).sum ≠ 0) :
    (distribute_proportional cfg location D functional).map (·.1)
      = functional := by
  simp only [distribute_proportional]
  rw [if_neg hW]
  simp only [List.map_append, List.map_map, List.map_cons, List.map_nil]
  have h1 : List.map ((·.1) ∘ fun n =>
      (n, ((organ_weight cfg location n * D /
        (functional.map (organ_weight cfg location)).sum : Nat) : Int)))
      functional.dropLast = List.map (fun n => n) functional.dropLast :=
    List.map_congr_left (fun n _ => rfl)
  rw [h1, List.map_id']
  exact dropLast_append_getLastD hne

theorem organs_ne_nil_of_functional (cfg : MedCfg) (ms : MedicalState)
    (location : String) (hfn : functional_organs cfg ms location ≠ []) :
    get_organ_by_body_location cfg location ≠ [] := by
  intro hc
  apply hfn
  simp [functional_organs, hc]

theorem distribute_eq_proportional (cfg : MedCfg) (location : String)
    (D : Nat) (ms : MedicalState) (target : Option String)
    (hfn : functional_organs cfg ms location ≠ [])
    (htgt : ∀ x, target = some x → x ∉ functional_organs cfg ms location) :
    distribute_damage_to_organs cfg location D ms target
      = distribute_proportional cfg location D
          (functional_organs cfg ms location) := by
  have ho := organs_ne_nil_of_functional cfg ms location hfn
  simp only [distribute_damage_to_organs]
  rw [if_neg (by simpa [List.isEmpty_iff] using ho),
    if_neg (by simpa [List.isEmpty_iff] using hfn)]
  cases target with
  | none => rfl
  | some t => exact if_neg (htgt t rfl)

theorem distribute_proportional_ne_nil (cfg : MedCfg) (location : String)
    (D : Nat) (functional : List String)
    (hW : (functional.map (organ_weight cfg location)).sum ≠ 0) :
    distribute_proportional cfg location D functional ≠ [] := by
  simp only [distribute_proportional]
  rw [if_neg hW]
  simp

/-! ### Claim theorems on the damage-distribution engine -/

/-- C2: for every damage-distribution call over a location with at least one
functional (non-destroyed) organ, with positive total functional hit weight
and no valid explicitly-targeted organ, the per-organ integer damages sum to
exactly the total damage, and the damages are assigned to exactly the
functional organs in iteration order (any rounding remainder falling to the
last of them); in particular 12 damage over the two equal-hit-weight
functional chest organs of the sample configuration splits 6/6. -/
theorem distribute_damage_preserves_total :
    (∀ (cfg : MedCfg) (ms : MedicalState) (location : String) (D : Nat)
        (target : Option String),
      functional_organs cfg ms location ≠ [] →
      functional_weight cfg ms location ≠ 0 →
      (∀ x, target = some x → x ∉ functional_organs cfg ms location) →
      ((distribute_damage_to_organs cfg location D ms target).map (·.2)).sum
          = (D : Int) ∧
      (distribute_damage_to_organs cfg location D ms target).map (·.1)
          = functional_organs cfg ms location) ∧
    distribute_damage_to_organs cfg0 "chest" 12 ms0 none
      = [("heart", 6), ("left_lung", 6)] := by
  constructor
  · intro cfg ms location D target hfn hW htgt
    rw [distribute_eq_proportional cfg location D ms target hfn htgt]
    exact ⟨distribute_proportional_sum _ _ _ _ hW,
      distribute_proportional_keys _ _ _ _ hfn hW⟩
  · rfl

/-- Witness for C2 at a concrete input: 7 damage over the two sample chest
organs still sums to 7 (remainder rule: 3 + 4). -/
theorem distribute_damage_preserves_total_witness :
    ((distribute_damage_to_organs cfg0 "chest" 7 ms0 none).map (·.2)).sum
      = (7 : Int) :=
  (distribute_damage_preserves_total.1 cfg0 ms0 "chest" 7 none (by decide)
    (by decide) (fun x h => by cases h)).1

/-- C10: when an explicitly-targeted organ is destroyed or absent from the
location, the call silently falls back to the proportional distribution —
the result is identical to an untargeted call and the requested organ
receives no damage entry. -/
theorem distribute_damage_invalid_target_fallback :
    ∀ (cfg : MedCfg) (ms : MedicalState) (location : String) (D : Nat)
      (t : String), t ∉ functional_organs cfg ms location →
      distribute_damage_to_organs cfg location D ms (some t)
          = distribute_damage_to_organs cfg location D ms none ∧
      t ∉ (distribute_damage_to_organs cfg location D ms (some t)).map (·.1)
    := by
  intro cfg ms location D t ht
  by_cases hfn : functional_organs cfg ms location = []
  · have hd : ∀ u : Option String,
        distribute_damage_to_organs cfg location D ms u = [] := by
      intro u
      simp only [distribute_damage_to_organs]
      by_cases ho : (get_organ_by_body_location cfg location).isEmpty
      · rw [if_pos ho]
      · rw [if_neg ho, if_pos (by simpa [List.isEmpty_iff] using hfn)]
    rw [hd (some t), hd none]
    simp
  · have htgt : ∀ x, (some t) = some x →
        x ∉ functional_organs cfg ms location := by
      intro x h
      cases h
      exact ht
    rw [distribute_eq_proportional cfg location D ms (some t) hfn htgt,
      distribute_eq_proportional cfg location D ms none hfn
        (fun x h => by cases h)]
    refine ⟨rfl, ?_⟩
    by_cases hW :
        ((functional_organs cfg ms location).map (organ_weight cfg location)).sum = 0
    · simp only [distribute_proportional]
      rw [if_pos hW]
      simp
    · rw [distribute_proportional_keys _ _ _ _ hfn hW]
      exact ht

/-- Witness for C10 at a concrete input: targeting the destroyed "heart"
falls back to the untargeted distribution. -/
theorem distribute_damage_invalid_target_fallback_witness :
    distribute_damage_to_organs cfg0 "chest" 9
        { organs := [("heart", ⟨0, 10⟩), ("left_lung", ⟨10, 10⟩)] }
        (some "heart")
      = distribute_damage_to_organs cfg0 "chest" 9
          { organs := [("heart", ⟨0, 10⟩), ("left_lung", ⟨10, 10⟩)] } none :=
  (distribute_damage_invalid_target_fallback cfg0
    { organs := [("heart", ⟨0, 10⟩), ("left_lung", ⟨10, 10⟩)] }
    "chest" 9 "heart" (by decide)).1

/-- C7: applying anatomical damage to a location whose organs are all
already destroyed mutates no medical state and returns the distinct
limb-lost no-op result (total damage 0, `limb_lost` flag set), while a
normal zero-damage call over functional organs reports total damage 0 with
the `limb_lost` flag clear. -/
theorem apply_damage_destroyed_location_noop :
    (∀ (cfg : MedCfg) (rnd : Nat → Nat × Nat) (ms : MedicalState) (D : Nat)
        (location ty : String) (target : Option String),
      get_organ_by_body_location cfg location ≠ [] →
      (∀ n ∈ get_organ_by_body_location cfg location,
          (ms.get_organ n).is_destroyed = true) →
      apply_anatomical_damage cfg rnd ms D location ty target
        = (ms, { organs_damaged := [], organs_destroyed := [],
                 total_damage := 0, location := location, limb_lost := true,
                 message := some ("No damage applied - all organs in "
                   ++ location ++ " are already destroyed") })) ∧
    (∀ (cfg : MedCfg) (rnd : Nat → Nat × Nat) (ms : MedicalState)
        (location ty : String),
      functional_organs cfg ms location ≠ [] →
      functional_weight cfg ms location ≠ 0 →
      (apply_anatomical_damage cfg rnd ms 0 location ty none).2.limb_lost
          = false ∧
      (apply_anatomical_damage cfg rnd ms 0 location ty none).2.total_damage
          = 0) := by
  constructor
  · intro cfg rnd ms D location ty target ho hdes
    have hfn : functional_organs cfg ms location = [] := by
      simp only [functional_organs]
      rw [List.filter_eq_nil_iff]
      intro n hn
      simp [hdes n hn]
    have hdist : distribute_damage_to_organs cfg location D ms target = [] := by
      simp only [distribute_damage_to_organs]
      by_cases hoe : (get_organ_by_body_location cfg location).isEmpty
      · rw [if_pos hoe]
      · rw [if_neg hoe, if_pos (by simpa [List.isEmpty_iff] using hfn)]
    simp only [apply_anatomical_damage, hdist]
    rw [if_pos (by simpa [List.isEmpty_iff] using ho)]
  · intro cfg rnd ms location ty hfn hW
    have hdist : distribute_damage_to_organs cfg location 0 ms none
        = distribute_proportional cfg location 0
            (functional_organs cfg ms location) :=
      distribute_eq_proportional cfg location 0 ms none hfn
        (fun x h => by cases h)
    have hne := distribute_proportional_ne_nil cfg location 0
      (functional_organs cfg ms location) hW
    simp only [apply_anatomical_damage, hdist]
    rw [if_neg (by simp [List.isEmpty_iff, hne])]
    exact ⟨rfl, by simp⟩

/-- Witness for C7 at a concrete input: 12 damage to the sample chest with
both organs destroyed is the flagged no-op, and a zero-damage call on the
healthy sample is not flagged. -/
theorem apply_damage_destroyed_location_noop_witness :
    apply_anatomical_damage cfg0 (fun _ => (100, 1)) msDestroyed 12 "chest"
        "blunt" none
      = (msDestroyed,
         { organs_damaged := [], organs_destroyed := [], total_damage := 0,
           location := "chest", limb_lost := true,
           message := some ("No damage applied - all organs in chest are "
             ++ "already destroyed") }) ∧
    (apply_anatomical_damage cfg0 (fun _ => (100, 1)) ms0 0 "chest" "blunt"
        none).2.limb_lost = false :=
  ⟨by
    have h := apply_damage_destroyed_location_noop.1 cfg0 (fun _ => (100, 1))
      msDestroyed 12 "chest" "blunt" none (by decide) (by decide)
    simpa using h,
   (apply_damage_destroyed_location_noop.2 cfg0 (fun _ => (100, 1)) ms0
     "chest" "blunt" (by decide) (by decide)).1⟩

/-- C9: a bleeding condition created at severity `s` has the table blood-loss
rate `R` for `s`; an untreated tick lowers the blood level by exactly `R`
(floored at 0) for every value of the natural-healing roll, the roll only
deciding whether severity also drops by one; with the treated flag set the
tick instead removes `int(R * 0.3)` blood. -/
theorem bleeding_tick_blood_loss :
    ∀ (cfg : MedCfg) (s : Int) (loc : Option String) (blood : Int)
      (heal_roll : Nat),
      ((tableGetI cfg.blood_loss_per_severity s 1 : Int) ≤ blood →
        (BleedingCondition.tick_effect (BleedingCondition.init cfg s loc)
          blood heal_roll).2
          = blood - (tableGetI cfg.blood_loss_per_severity s 1 : Int)) ∧
      (BleedingCondition.tick_effect (BleedingCondition.init cfg s loc)
          blood heal_roll).2
        = max 0 (blood - (tableGetI cfg.blood_loss_per_severity s 1 : Int)) ∧
      (BleedingCondition.tick_effect
          { BleedingCondition.init cfg s loc with treated := true }
          blood heal_roll).2
        = max 0 (blood -
            ((3 * tableGetI cfg.blood_loss_per_severity s 1 / 10 : Nat) : Int)) ∧
      (heal_roll ≤ 10 →
        (BleedingCondition.tick_effect (BleedingCondition.init cfg s loc)
          blood heal_roll).1.severity = max 0 (s - 1)) ∧
      (10 < heal_roll →
        (BleedingCondition.tick_effect (BleedingCondition.init cfg s loc)
          blood heal_roll).1 = BleedingCondition.init cfg s loc) := by
  intro cfg s loc blood heal_roll
  refine ⟨?_, ?_, ?_, ?_, ?_⟩
  · intro hle
    simp [BleedingCondition.tick_effect, BleedingCondition.init,
      MedicalCondition.init]
    omega
  · simp [BleedingCondition.tick_effect, BleedingCondition.init,
      MedicalCondition.init]
  · simp [BleedingCondition.tick_effect, BleedingCondition.init,
      MedicalCondition.init]
  · intro hr
    simp [BleedingCondition.tick_effect, BleedingCondition.init,
      MedicalCondition.init, hr]
  · intro hr
    simp [BleedingCondition.tick_effect, BleedingCondition.init,
      MedicalCondition.init, Nat.not_le.mpr hr]

/-- Witness for C9 at a concrete input: severity 4 with table rate 3,
blood 50 — an untreated tick leaves 47 whatever the healing roll did, a
treated tick removes `int(3 * 0.3) = 0`. -/
theorem bleeding_tick_blood_loss_witness :
    (BleedingCondition.tick_effect (BleedingCondition.init cfg0 4 none)
        50 5).2 = 50 - 3 ∧
    (BleedingCondition.tick_effect (BleedingCondition.init cfg0 4 none)
        50 50).2 = 50 - 3 ∧
    (BleedingCondition.tick_effect
        { BleedingCondition.init cfg0 4 none with treated := true }
        50 5).2 = 50 :=
  ⟨(bleeding_tick_blood_loss cfg0 4 none 50 5).1 (by decide),
   (bleeding_tick_blood_loss cfg0 4 none 50 50).1 (by decide),
   by
    have h := (bleeding_tick_blood_loss cfg0 4 none 50 5).2.2.1
    simpa using h⟩

/-- C3 (failing evaluation): the round-trip holds for `BleedingCondition`,
which overrides `from_dict`, but `PainCondition.from_dict` and
`InfectionCondition.from_dict` are the inherited base classmethod, whose
`cls(condition_type, severity, location)` call does not match the subclass
`__init__(severity, location)` arity and raises `TypeError` instead of
reconstructing the condition. -/
theorem condition_from_dict_arity_mismatch :
    PainCondition.from_dict
        (MedicalCondition.to_dict (PainCondition.init 4 none)) = none ∧
    InfectionCondition.from_dict
        (MedicalCondition.to_dict (InfectionCondition.init 2 (some "chest")))
      = none ∧
    BleedingCondition.from_dict cfg0
        (BleedingCondition.to_dict (BleedingCondition.init cfg0 4
          (some "chest")))
      = some (BleedingCondition.init cfg0 4 (some "chest")) :=
  ⟨rfl, rfl, rfl⟩

end medical

/-! ## Roster-preservation lemmas for combatant removal -/

theorem break_grapple_map_char (s : List Entry) (g v : Option Nat) :
    (grappling.break_grapple s g v).2.map Entry.char = s.map Entry.char := by
  simp only [grappling.break_grapple]
  by_cases h : g = none ∧ v = none
  · rw [if_pos h]
  · rw [if_neg h]
    simp only [List.map_map]
    apply List.map_congr_left
    intro e _
    rcases g with _ | gc <;> rcases v with _ | vc <;> dsimp <;>
      repeat' first | split | rfl

theorem cleanup_map_char (w : World) (s : List Entry) (c : Nat) (e : Entry) :
    (combat_utils.cleanup_combatant_state w s c e).map Entry.char
      = s.map Entry.char := by
  simp only [combat_utils.cleanup_combatant_state]
  rcases combat_utils.get_character_by_dbref w e.grappling_dbref with _ | v <;>
    rcases combat_utils.get_character_by_dbref w e.grappled_by_dbref
      with _ | g <;>
    dsimp <;> simp [break_grapple_map_char]

theorem auto_retarget_map_char (w : World) (removed : Nat) (s : List Entry)
    (i : Nat) :
    (combat_utils.auto_retarget_at w removed s i).map Entry.char
      = s.map Entry.char := by
  simp only [combat_utils.auto_retarget_at]
  cases hoe : s.get? i with
  | none => rfl
  | some oe =>
    dsimp
    by_cases ht : oe.target_dbref = some removed
    · rw [if_pos ht]
      have hset : (s.set i { oe with target_dbref := none }).map Entry.char
          = s.map Entry.char := by
        rw [List.map_set]
        exact set_get?_self _ i _ (by
          rw [show ∀ (l : List Entry) (n : Nat),
              (l.map Entry.char).get? n = (l.get? n).map Entry.char from
            fun l n => by simp [List.get?_eq_getElem?, List.getElem?_map], hoe]
          rfl)
      split
      · exact hset
      · refine (upd_map_char ?_).trans hset
        intro x
        rfl
    · rw [if_neg ht]

theorem retarget_foldl_map_char (w : World) (removed : Nat) :
    ∀ (l : List Nat) (s : List Entry),
      (l.foldl (combat_utils.auto_retarget_at w removed) s).map Entry.char
        = s.map Entry.char := by
  intro l
  induction l with
  | nil => intro s; rfl
  | cons a t ih =>
    intro s
    simp only [List.foldl_cons]
    rw [ih, auto_retarget_map_char]

theorem remove_combatant_char_mem (w : World) (s : List Entry) (c : Nat) :
    ∀ f ∈ combat_utils.remove_combatant w s c,
      f.char ∈ s.map Entry.char := by
  intro f hf
  simp only [combat_utils.remove_combatant] at hf
  cases he : findEntry s c with
  | none =>
    rw [he] at hf
    exact List.mem_map_of_mem _ hf
  | some e =>
    rw [he] at hf
    have hf2 := List.mem_of_mem_filter hf
    have hchar : f.char ∈ ((List.range (combat_utils.cleanup_combatant_state
        w s c e).length).foldl (combat_utils.auto_retarget_at w c)
        (combat_utils.cleanup_combatant_state w s c e)).map Entry.char :=
      List.mem_map_of_mem _ hf2
    rwa [retarget_foldl_map_char, cleanup_map_char] at hchar

theorem remove_combatant_char_ne (w : World) (s : List Entry) (c : Nat) :
    ∀ f ∈ combat_utils.remove_combatant w s c, f.char ≠ c := by
  intro f hf
  simp only [combat_utils.remove_combatant] at hf
  cases he : findEntry s c with
  | none =>
    rw [he] at hf
    have h2 := findEntry_eq_none.mp he
    exact h2 f hf
  | some e =>
    rw [he] at hf
    have h2 := List.of_mem_filter hf
    simpa using h2

theorem findEntry_remove_self (w : World) (s : List Entry) (c : Nat) :
    findEntry (combat_utils.remove_combatant w s c) c = none :=
  findEntry_eq_none.mpr (remove_combatant_char_ne w s c)

theorem no_char_foldl_remove (w : World) :
    ∀ (l : List Nat) (s : List Entry) (c : Nat),
      (∀ f ∈ s, f.char ≠ c) →
      ∀ f ∈ l.foldl (combat_utils.remove_combatant w) s, f.char ≠ c := by
  intro l
  induction l with
  | nil => intro s c h f hf; exact h f hf
  | cons a t ih =>
    intro s c h f hf
    simp only [List.foldl_cons] at hf
    refine ih _ c ?_ f hf
    intro g hg
    have hm := remove_combatant_char_mem w s a g hg
    obtain ⟨x, hx, hxc⟩ := List.mem_map.mp hm
    rw [← hxc]
    exact h x hx

theorem remove_foldl_ne (w : World) :
    ∀ (l : List Nat) (s : List Entry) (c : Nat), c ∈ l →
      ∀ f ∈ l.foldl (combat_utils.remove_combatant w) s, f.char ≠ c := by
  intro l
  induction l with
  | nil => simp
  | cons a t ih =>
    intro s c hc f hf
    simp only [List.foldl_cons] at hf
    rcases List.mem_cons.mp hc with rfl | hct
    · exact no_char_foldl_remove w t _ c (remove_combatant_char_ne w s c) f hf
    · exact ih _ c hct f hf

/-! ## Sample combat data for concrete witnesses -/

/-- A sample world with two mutually proximate characters. -/
def w0 : World :=
  { chars := [1, 2], prox := fun c => if c = 1 then [2] else [1] }

/-- A lone yielding combatant with no relationships (an orphan). -/
def loneYielding : Entry := { char := 5, is_yielding := true }

/-! ## Claim theorems on combatant removal -/

/-- C6: `remove_combatant` on a character with no entry in the session's
roster is a no-op that leaves the roster untouched (the function is total,
so the second call also cannot raise); consequently removing the same
character twice equals removing it once. -/
theorem remove_combatant_idempotent :
    ∀ (w : World) (s : List Entry) (c : Nat),
      (findEntry s c = none → combat_utils.remove_combatant w s c = s) ∧
      combat_utils.remove_combatant w (combat_utils.remove_combatant w s c) c
        = combat_utils.remove_combatant w s c := by
  intro w s c
  have hnoop : ∀ s2 : List Entry, findEntry s2 c = none →
      combat_utils.remove_combatant w s2 c = s2 := by
    intro s2 h
    simp [combat_utils.remove_combatant, h]
  exact ⟨hnoop s, hnoop _ (findEntry_remove_self w s c)⟩

/-- Witness for C6 at a concrete input: removing an absent character (dbref
9) from a one-entry roster changes nothing. -/
theorem remove_combatant_idempotent_witness :
    findEntry [loneYielding] 9 = none ∧
    combat_utils.remove_combatant w0 [loneYielding] 9 = [loneYielding] :=
  ⟨by decide, (remove_combatant_idempotent w0 [loneYielding] 9).1 (by decide)⟩

/-- C5: a combatant entry with no target, no grapple reference in either
direction, and whose character is not the target of any entry is orphaned
and is removed from the roster by round-end orphan detection; the entry is
otherwise arbitrary, so in particular the yielding flag grants no
exemption. -/
theorem orphaned_combatant_removed :
    ∀ (w : World) (s : List Entry) (e : Entry), e ∈ s →
      e.target_dbref = none → e.grappling_dbref = none →
      e.grappled_by_dbref = none →
      (∀ f ∈ s, f.target_dbref ≠ some e.char) →
      findEntry
        (combat_utils.detect_and_remove_orphaned_combatants w s).2 e.char
        = none := by
  intro w s e he h1 h2 h3 h4
  rw [findEntry_eq_none]
  simp only [combat_utils.detect_and_remove_orphaned_combatants]
  rw [if_neg (by
    simp only [List.isEmpty_iff]
    exact fun hc => (List.ne_nil_of_mem he) hc)]
  refine remove_foldl_ne w _ s e.char ?_
  refine List.mem_map_of_mem _ ?_
  refine List.mem_filter.mpr ⟨he, ?_⟩
  have hnt : e.char ∉ s.filterMap (·.target_dbref) := by
    intro hc
    obtain ⟨f, hf, hfc⟩ := List.mem_filterMap.mp hc
    exact h4 f hf hfc
  simp [h1, h2, h3, hnt]

/-- Witness for C5 at a concrete input: the lone yielding combatant is
removed, destroying the one-entry session. -/
theorem orphaned_combatant_removed_witness :
    findEntry
      (combat_utils.detect_and_remove_orphaned_combatants w0
        [loneYielding]).2 5 = none :=
  orphaned_combatant_removed w0 [loneYielding] loneYielding (by decide)
    rfl rfl rfl (by decide)

/-! ## Grapple symmetry: validity predicates and update lemmas -/

/-- Every roster character is a live, resolvable database object (Evennia
dbrefs are positive). -/
def rosterValid (w : World) (s : List Entry) : Prop :=
  ∀ e ∈ s, e.char ∈ w.chars ∧ e.char ≠ 0

/-- Every grapple reference of the roster points at a live, in-combat,
distinct character. -/
def validRefs (w : World) (s : List Entry) : Prop :=
  ∀ e ∈ s,
    (∀ x, e.grappling_dbref = some x →
      x ≠ 0 ∧ x ∈ w.chars ∧ x ≠ e.char ∧ x ∈ s.map Entry.char) ∧
    (∀ x, e.grappled_by_dbref = some x →
      x ≠ 0 ∧ x ∈ w.chars ∧ x ≠ e.char ∧ x ∈ s.map Entry.char)

/-- Symmetry transfers through an entry-wise update that keeps characters. -/
theorem grappleSymmetric_map {s : List Entry} {g : Entry → Entry}
    (hchar : ∀ e, (g e).char = e.char)
    (hpt : ∀ a ∈ s, ∀ b ∈ s,
      ((g a).grappling_dbref = some b.char ↔
       (g b).grappled_by_dbref = some a.char)) :
    grappleSymmetric (s.map g) := by
  intro x hx y hy
  obtain ⟨a, ha, rfl⟩ := List.mem_map.mp hx
  obtain ⟨b, hb, rfl⟩ := List.mem_map.mp hy
  rw [hchar a, hchar b]
  exact hpt a ha b hb

/-- Establishing a fresh grapple link G → V preserves symmetry when G
grapples nobody on the roster and nobody on the roster grapples V. -/
theorem pointwise_link {s : List Entry} (hnd : (s.map Entry.char).Nodup)
    (hsym : grappleSymmetric s) {G V : Entry} (hG : G ∈ s) (hV : V ∈ s)
    (hGa : ∀ b ∈ s, G.grappling_dbref ≠ some b.char)
    (hVb : ∀ b ∈ s, V.grappled_by_dbref ≠ some b.char)
    {g : Entry → Entry}
    (hgr : ∀ e ∈ s, (g e).grappling_dbref
      = if e.char = G.char then some V.char else e.grappling_dbref)
    (hgb : ∀ e ∈ s, (g e).grappled_by_dbref
      = if e.char = V.char then some G.char else e.grappled_by_dbref) :
    ∀ a ∈ s, ∀ b ∈ s,
      ((g a).grappling_dbref = some b.char ↔
       (g b).grappled_by_dbref = some a.char) := by
  intro a ha b hb
  rw [hgr a ha, hgb b hb]
  by_cases haG : a.char = G.char <;> by_cases hbV : b.char = V.char
  · rw [if_pos haG, if_pos hbV]
    simp [haG, hbV]
  · rw [if_pos haG, if_neg hbV]
    constructor
    · intro h
      exact absurd (Option.some.inj h).symm hbV
    · intro h
      have haG2 : a = G := entry_unique hnd ha hG haG
      have h2 := (hsym a ha b hb).mpr h
      rw [haG2] at h2
      exact absurd h2 (hGa b hb)
  · rw [if_neg haG, if_pos hbV]
    constructor
    · intro h
      have hbV2 : b = V := entry_unique hnd hb hV hbV
      have h2 := (hsym a ha b hb).mp h
      rw [hbV2] at h2
      exact absurd h2 (hVb a ha)
    · intro h
      exact absurd (Option.some.inj h) (fun hh => haG hh.symm)
  · rw [if_neg haG, if_neg hbV]
    exact hsym a ha b hb

/-- Taking over an existing grapple O → V by a challenger G (who grapples
nobody and differs from O) preserves symmetry. -/
theorem pointwise_takeover {s : List Entry} (hnd : (s.map Entry.char).Nodup)
    (hsym : grappleSymmetric s) {G O V : Entry} (hG : G ∈ s) (hO : O ∈ s)
    (hV : V ∈ s)
    (hGa : ∀ b ∈ s, G.grappling_dbref ≠ some b.char)
    (hOV : O.grappling_dbref = some V.char)
    (hVO : V.grappled_by_dbref = some O.char)
    {g : Entry → Entry}
    (hgr : ∀ e ∈ s, (g e).grappling_dbref
      = if e.char = G.char then some V.char
        else if e.char = O.char then none else e.grappling_dbref)
    (hgb : ∀ e ∈ s, (g e).grappled_by_dbref
      = if e.char = V.char then some G.char else e.grappled_by_dbref) :
    ∀ a ∈ s, ∀ b ∈ s,
      ((g a).grappling_dbref = some b.char ↔
       (g b).grappled_by_dbref = some a.char) := by
  intro a ha b hb
  rw [hgr a ha, hgb b hb]
  by_cases haG : a.char = G.char
  · rw [if_pos haG]
    by_cases hbV : b.char = V.char
    · rw [if_pos hbV]
      simp [haG, hbV]
    · rw [if_neg hbV]
      constructor
      · intro h
        exact absurd (Option.some.inj h).symm hbV
      · intro h
        have haG2 : a = G := entry_unique hnd ha hG haG
        have h2 := (hsym a ha b hb).mpr h
        rw [haG2] at h2
        exact absurd h2 (hGa b hb)
  · rw [if_neg haG]
    by_cases haO : a.char = O.char
    · rw [if_pos haO]
      by_cases hbV : b.char = V.char
      · rw [if_pos hbV]
        constructor
        · intro h
          exact absurd h (by simp)
        · intro h
          exact absurd (Option.some.inj h) (fun hh => haG hh.symm)
      · rw [if_neg hbV]
        constructor
        · intro h
          exact absurd h (by simp)
        · intro h
          have haO2 : a = O := entry_unique hnd ha hO haO
          have h2 := (hsym a ha b hb).mpr h
          rw [haO2, hOV] at h2
          exact absurd (Option.some.inj h2).symm hbV
    · rw [if_neg haO]
      by_cases hbV : b.char = V.char
      · rw [if_pos hbV]
        constructor
        · intro h
          have hbV2 : b = V := entry_unique hnd hb hV hbV
          have h2 := (hsym a ha b hb).mp h
          rw [hbV2, hVO] at h2
          exact absurd (Option.some.inj h2).symm haO
        · intro h
          exact absurd (Option.some.inj h) (fun hh => haG hh.symm)
      · rw [if_neg hbV]
        exact hsym a ha b hb

/-- Clearing an existing grapple link G → V on both sides preserves
symmetry. -/
theorem pointwise_unlink {s : List Entry} (hnd : (s.map Entry.char).Nodup)
    (hsym : grappleSymmetric s) {G V : Entry} (hG : G ∈ s) (hV : V ∈ s)
    (hGl : G.grappling_dbref = some V.char)
    (hVl : V.grappled_by_dbref = some G.char)
    {g : Entry → Entry}
    (hgr : ∀ e ∈ s, (g e).grappling_dbref
      = if e.char = G.char then none else e.grappling_dbref)
    (hgb : ∀ e ∈ s, (g e).grappled_by_dbref
      = if e.char = V.char then none else e.grappled_by_dbref) :
    ∀ a ∈ s, ∀ b ∈ s,
      ((g a).grappling_dbref = some b.char ↔
       (g b).grappled_by_dbref = some a.char) := by
  intro a ha b hb
  rw [hgr a ha, hgb b hb]
  by_cases haG : a.char = G.char <;> by_cases hbV : b.char = V.char
  · rw [if_pos haG, if_pos hbV]
    simp
  · rw [if_pos haG, if_neg hbV]
    constructor
    · intro h
      exact absurd h (by simp)
    · intro h
      have haG2 : a = G := entry_unique hnd ha hG haG
      have h2 := (hsym a ha b hb).mpr h
      rw [haG2, hGl] at h2
      exact absurd (Option.some.inj h2).symm hbV
  · rw [if_neg haG, if_pos hbV]
    constructor
    · intro h
      have hbV2 : b = V := entry_unique hnd hb hV hbV
      have h2 := (hsym a ha b hb).mp h
      rw [hbV2, hVl] at h2
      exact absurd (Option.some.inj h2).symm haG
    · intro h
      exact absurd h (by simp)
  · rw [if_neg haG, if_neg hbV]
    exact hsym a ha b hb

theorem get_character_by_dbref_eq {w : World} {d : Option Nat} {x : Nat}
    (h : grappling.get_character_by_dbref w d = some x) :
    d = some x ∧ x ≠ 0 ∧ x ∈ w.chars := by
  cases d with
  | none => simp [grappling.get_character_by_dbref] at h
  | some y =>
    by_cases h0 : y = 0
    · simp [grappling.get_character_by_dbref, h0] at h
    · by_cases hc : y ∈ w.chars
      · simp [grappling.get_character_by_dbref, h0, hc] at h
        exact ⟨by rw [h], h ▸ h0, h ▸ hc⟩
      · simp [grappling.get_character_by_dbref, h0, hc] at h

/-- Release preserves grapple symmetry unconditionally. -/
theorem release_grapple_symmetric (w : World) (a : Nat) (s : List Entry)
    (hnd : (s.map Entry.char).Nodup) (hsym : grappleSymmetric s) :
    grappleSymmetric (grappling.resolve_release_grapple w a s) := by
  cases hae : findEntry s a with
  | none => simp only [grappling.resolve_release_grapple, hae]; exact hsym
  | some ae =>
    cases hvres : grappling.get_character_by_dbref w ae.grappling_dbref with
    | none =>
      simp only [grappling.resolve_release_grapple, hae, hvres]
      exact hsym
    | some v =>
      cases hve : findEntry s v with
      | none =>
        simp only [grappling.resolve_release_grapple, hae, hvres, hve]
        exact hsym
      | some ve =>
        have hd : ae.grappling_dbref = some v := (get_character_by_dbref_eq hvres).1
        have hmae := findEntry_mem hae
        have hmve := findEntry_mem hve
        have haec := findEntry_char hae
        have hvec := findEntry_char hve
        have hGl : ae.grappling_dbref = some ve.char := by rw [hd, hvec]
        have hVl : ve.grappled_by_dbref = some ae.char :=
          (hsym ae hmae ve hmve).mp hGl
        simp only [grappling.resolve_release_grapple, hae, hvres, hve, upd,
          List.map_map]
        apply grappleSymmetric_map
        · intro e
          by_cases hav : a = v
          · subst hav
            by_cases h1 : e.char = a <;> simp [Function.comp, h1]
          · have hva : ¬ v = a := fun h => hav h.symm
            by_cases h1 : e.char = a
            · simp [Function.comp, h1, hav, hva]
            · by_cases h2 : e.char = v <;>
                simp [Function.comp, h1, h2, hav, hva]
        · refine pointwise_unlink hnd hsym hmae hmve hGl hVl ?_ ?_
          · intro e _
            rw [haec]
            by_cases hav : a = v
            · subst hav
              by_cases h1 : e.char = a <;> simp [Function.comp, h1]
            · have hva : ¬ v = a := fun h => hav h.symm
              by_cases h1 : e.char = a
              · simp [Function.comp, h1, hav, hva]
              · by_cases h2 : e.char = v <;>
                  simp [Function.comp, h1, h2, hav, hva]
          · intro e _
            rw [hvec]
            by_cases hav : a = v
            · subst hav
              by_cases h1 : e.char = a <;> simp [Function.comp, h1]
            · have hva : ¬ v = a := fun h => hav h.symm
              by_cases h1 : e.char = a
              · simp [Function.comp, h1, hav, hva]
              · by_cases h2 : e.char = v <;>
                  simp [Function.comp, h1, h2, hav, hva]

/-- Establishing a grapple preserves symmetry on a valid roster: the two
already-grappling / already-grappled guards ensure the new link is fresh. -/
theorem establish_grapple_symmetric (w : World) (s : List Entry) (gc v : Nat)
    (hnd : (s.map Entry.char).Nodup) (hval : rosterValid w s)
    (hsym : grappleSymmetric s) :
    grappleSymmetric (grappling.establish_grapple w s gc v).2 := by
  by_cases hgv : gc = v
  · simp only [grappling.establish_grapple, if_pos hgv]
    exact hsym
  cases hge : findEntry s gc with
  | none =>
    cases hve : findEntry s v with
    | none =>
      simp only [grappling.establish_grapple, if_neg hgv, hge, hve]
      exact hsym
    | some ve =>
      simp only [grappling.establish_grapple, if_neg hgv, hge, hve]
      exact hsym
  | some ge =>
    cases hve : findEntry s v with
    | none =>
      simp only [grappling.establish_grapple, if_neg hgv, hge, hve]
      exact hsym
    | some ve =>
      by_cases hc1 : (ge.grappling_dbref.isSome = true ∧
          (grappling.get_character_by_dbref w ge.grappling_dbref).isSome = true)
      · simp only [grappling.establish_grapple, if_neg hgv, hge, hve,
          if_pos hc1]
        exact hsym
      by_cases hc2 : (ve.grappled_by_dbref.isSome = true ∧
          (grappling.get_character_by_dbref w ve.grappled_by_dbref).isSome
            = true)
      · simp only [grappling.establish_grapple, if_neg hgv, hge, hve,
          if_neg hc1, if_pos hc2]
        exact hsym
      simp only [grappling.establish_grapple, if_neg hgv, hge, hve,
        if_neg hc1, if_neg hc2]
      have hmge := findEntry_mem hge
      have hmve := findEntry_mem hve
      have hgchar := findEntry_char hge
      have hvchar := findEntry_char hve
      have hGa : ∀ b ∈ s, ge.grappling_dbref ≠ some b.char := by
        intro b hb hcontra
        refine hc1 ⟨by rw [hcontra]; rfl, ?_⟩
        rw [hcontra]
        have hb2 := hval b hb
        simp [grappling.get_character_by_dbref, hb2.1, hb2.2]
      have hVb : ∀ b ∈ s, ve.grappled_by_dbref ≠ some b.char := by
        intro b hb hcontra
        refine hc2 ⟨by rw [hcontra]; rfl, ?_⟩
        rw [hcontra]
        have hb2 := hval b hb
        simp [grappling.get_character_by_dbref, hb2.1, hb2.2]
      have hvg : ¬ v = gc := fun h => hgv h.symm
      apply grappleSymmetric_map
      · intro e
        by_cases h1 : e.char = gc <;> by_cases h2 : e.char = v <;>
          simp [h1, h2, hgv, hvg]
      · refine pointwise_link hnd hsym hmge hmve hGa hVb ?_ ?_
        · intro e _
          rw [hgchar, hvchar]
          by_cases h1 : e.char = gc
          · simp [h1]
          · by_cases h2 : e.char = v <;> simp [h1, h2, hgv, hvg]
        · intro e _
          rw [hgchar, hvchar]
          by_cases h1 : e.char = gc
          · have h2 : ¬ e.char = v := fun h => hgv (h1.symm.trans h)
            simp [h1, h2, hgv, hvg]
          · by_cases h2 : e.char = v <;> simp [h1, h2, hgv, hvg]

/-- An update that changes neither grapple field of any entry keeps the
symmetry condition. -/
theorem pointwise_frame {s : List Entry} (hsym : grappleSymmetric s)
    {g : Entry → Entry}
    (hgr : ∀ e ∈ s, (g e).grappling_dbref = e.grappling_dbref)
    (hgb : ∀ e ∈ s, (g e).grappled_by_dbref = e.grappled_by_dbref) :
    ∀ a ∈ s, ∀ b ∈ s,
      ((g a).grappling_dbref = some b.char ↔
       (g b).grappled_by_dbref = some a.char) := by
  intro a ha b hb
  rw [hgr a ha, hgb b hb]
  exact hsym a ha b hb

/-- Initiating a grapple preserves symmetry when the attacker grapples
nobody and the target is grappled by nobody, whatever the rolls. -/
theorem initiate_grapple_symmetric (w : World) (a : Nat)
    (rollA rollD : Nat) (s : List Entry) (ae te : Entry) (t : Nat)
    (hnd : (s.map Entry.char).Nodup) (hsym : grappleSymmetric s)
    (hae : findEntry s a = some ae) (htgt : ae.target_dbref = some t)
    (htc : t ∈ w.chars) (hte : findEntry s t = some te) (hat : a ≠ t)
    (hga : ae.grappling_dbref = none) (htb : te.grappled_by_dbref = none) :
    grappleSymmetric (grappling.resolve_grapple_initiate w a rollA rollD s)
    := by
  have hta : ¬ t = a := fun h => hat h.symm
  have haec := findEntry_char hae
  have htec := findEntry_char hte
  by_cases hprox : t ∈ w.prox a
  · by_cases hroll : rollA > rollD
    · have hres : grappling.resolve_grapple_initiate w a rollA rollD s
          = upd (upd (upd (upd s a
              (fun e => { e with grappling_dbref := some t })) t
              (fun e => { e with grappled_by_dbref := some a })) t
              (fun e => { e with target_dbref := some a })) a
              (fun e => { e with is_yielding := true }) := by
        simp [grappling.resolve_grapple_initiate, hae, htgt,
          combat_utils.get_character_by_dbref, htc, hte, hprox, hroll]
      rw [hres]
      simp only [upd, List.map_map]
      apply grappleSymmetric_map
      · intro e
        by_cases h1 : e.char = a <;> by_cases h2 : e.char = t <;>
          simp [Function.comp, h1, h2, hat, hta]
      · have hGa : ∀ b ∈ s, ae.grappling_dbref ≠ some b.char := by
          intro b _
          rw [hga]
          simp
        have hVb : ∀ b ∈ s, te.grappled_by_dbref ≠ some b.char := by
          intro b _
          rw [htb]
          simp
        refine pointwise_link hnd hsym (findEntry_mem hae)
          (findEntry_mem hte) hGa hVb ?_ ?_
        · intro e _
          rw [haec, htec]
          by_cases h1 : e.char = a <;> by_cases h2 : e.char = t <;>
            simp [Function.comp, h1, h2, hat, hta]
        · intro e _
          rw [haec, htec]
          by_cases h1 : e.char = a <;> by_cases h2 : e.char = t <;>
            simp [Function.comp, h1, h2, hat, hta]
    · by_cases hic : ae.initiated_combat
      · have hres : grappling.resolve_grapple_initiate w a rollA rollD s
            = upd (upd s a (fun e => { e with is_yielding := true })) t
                (fun e => { e with is_yielding := true }) := by
          simp [grappling.resolve_grapple_initiate, hae, htgt,
            combat_utils.get_character_by_dbref, htc, hte, hprox, hroll, hic]
        rw [hres]
        simp only [upd, List.map_map]
        apply grappleSymmetric_map
        · intro e
          by_cases h1 : e.char = a <;> by_cases h2 : e.char = t <;>
            simp [Function.comp, h1, h2, hat, hta]
        · refine pointwise_frame hsym ?_ ?_
          · intro e _
            by_cases h1 : e.char = a <;> by_cases h2 : e.char = t <;>
              simp [Function.comp, h1, h2, hat, hta]
          · intro e _
            by_cases h1 : e.char = a <;> by_cases h2 : e.char = t <;>
              simp [Function.comp, h1, h2, hat, hta]
      · have hres : grappling.resolve_grapple_initiate w a rollA rollD s = s := by
          simp [grappling.resolve_grapple_initiate, hae, htgt,
            combat_utils.get_character_by_dbref, htc, hte, hprox, hroll, hic]
        rw [hres]
        exact hsym
  · have hres : grappling.resolve_grapple_initiate w a rollA rollD s = s := by
      simp [grappling.resolve_grapple_initiate, hae, htgt,
        combat_utils.get_character_by_dbref, htc, hte, hprox]
    rw [hres]
    exact hsym

/-- A join/takeover contest preserves symmetry when the challenger is
distinct from the current grappler (and from the victim) and grapples
nobody, whatever the rolls. -/
theorem join_grapple_symmetric (w : World) (a : Nat) (rollN rollC : Nat)
    (s : List Entry) (ae te oe : Entry) (t gOld : Nat)
    (hnd : (s.map Entry.char).Nodup) (hsym : grappleSymmetric s)
    (hae : findEntry s a = some ae) (htgt : ae.target_dbref = some t)
    (htc : t ∈ w.chars) (hte : findEntry s t = some te)
    (hgb : te.grappled_by_dbref = some gOld) (hg0 : gOld ≠ 0)
    (hgc : gOld ∈ w.chars) (hoe : findEntry s gOld = some oe)
    (hat : a ≠ t) (hao : gOld ≠ a) (hot : gOld ≠ t)
    (hga : ae.grappling_dbref = none) :
    grappleSymmetric (grappling.resolve_grapple_join w a rollN rollC s) := by
  have hta : ¬ t = a := fun h => hat h.symm
  have hoa : ¬ a = gOld := fun h => hao h.symm
  have hto : ¬ t = gOld := fun h => hot h.symm
  have haec := findEntry_char hae
  have htec := findEntry_char hte
  have hoec := findEntry_char hoe
  have hresolve : grappling.get_character_by_dbref w te.grappled_by_dbref
      = some gOld := by
    simp [hgb, grappling.get_character_by_dbref, hg0, hgc]
  have hgbne : ¬ te.grappled_by_dbref = none := by simp [hgb]
  by_cases hprox : t ∈ w.prox a
  · by_cases hroll : rollN > rollC
    · have hres : grappling.resolve_grapple_join w a rollN rollC s
          = upd (upd (upd s a (fun e =>
              { e with grappling_dbref := some t, is_yielding := true }))
              gOld (fun e => { e with grappling_dbref := none })) t
              (fun e => { e with grappled_by_dbref := some a }) := by
        simp [grappling.resolve_grapple_join, hae, htgt,
          combat_utils.get_character_by_dbref, htc, hte, hgbne, hresolve,
          hoe, hprox, hroll]
      rw [hres]
      simp only [upd, List.map_map]
      apply grappleSymmetric_map
      · intro e
        by_cases h1 : e.char = a <;> by_cases h2 : e.char = gOld <;>
          by_cases h3 : e.char = t <;>
          simp [Function.comp, h1, h2, h3, hat, hta, hao, hoa, hot, hto]
      · have hGa : ∀ b ∈ s, ae.grappling_dbref ≠ some b.char := by
          intro b _
          rw [hga]
          simp
        have hOV : oe.grappling_dbref = some te.char :=
          (hsym oe (findEntry_mem hoe) te (findEntry_mem hte)).mpr
            (by rw [hgb, hoec])
        have hVO : te.grappled_by_dbref = some oe.char := by
          rw [hgb, hoec]
        refine pointwise_takeover hnd hsym (findEntry_mem hae)
          (findEntry_mem hoe) (findEntry_mem hte) hGa hOV hVO ?_ ?_
        · intro e _
          rw [haec, htec, hoec]
          by_cases h1 : e.char = a <;> by_cases h2 : e.char = gOld <;>
            by_cases h3 : e.char = t <;>
            simp [Function.comp, h1, h2, h3, hat, hta, hao, hoa, hot, hto]
        · intro e _
          rw [haec, htec]
          by_cases h1 : e.char = a <;> by_cases h2 : e.char = gOld <;>
            by_cases h3 : e.char = t <;>
            simp [Function.comp, h1, h2, h3, hat, hta, hao, hoa, hot, hto]
    · by_cases hic : ae.initiated_combat
      · have hres : grappling.resolve_grapple_join w a rollN rollC s
            = upd s a (fun e => { e with is_yielding := true }) := by
          simp [grappling.resolve_grapple_join, hae, htgt,
            combat_utils.get_character_by_dbref, htc, hte, hgbne, hresolve,
            hoe, hprox, hroll, hic]
        rw [hres]
        simp only [upd]
        apply grappleSymmetric_map
        · intro e
          by_cases h1 : e.char = a <;> simp [h1]
        · refine pointwise_frame hsym ?_ ?_
          · intro e _
            by_cases h1 : e.char = a <;> simp [h1]
          · intro e _
            by_cases h1 : e.char = a <;> simp [h1]
      · have hres : grappling.resolve_grapple_join w a rollN rollC s = s := by
          simp [grappling.resolve_grapple_join, hae, htgt,
            combat_utils.get_character_by_dbref, htc, hte, hgbne, hresolve,
            hoe, hprox, hroll, hic]
        rw [hres]
        exact hsym
  · have hres : grappling.resolve_grapple_join w a rollN rollC s = s := by
      simp [grappling.resolve_grapple_join, hae, htgt,
        combat_utils.get_character_by_dbref, htc, hte, hgbne, hresolve,
        hoe, hprox]
    rw [hres]
    exact hsym

/-- Clearing G's outgoing link preserves symmetry when its victim dbref
does not belong to any roster entry (so no incoming side exists). -/
theorem pointwise_unlink_noV {s : List Entry} (hnd : (s.map Entry.char).Nodup)
    (hsym : grappleSymmetric s) {G : Entry} (hG : G ∈ s) {V : Nat}
    (hGl : G.grappling_dbref = some V) (hnoV : ∀ b ∈ s, b.char ≠ V)
    {g : Entry → Entry}
    (hgr : ∀ e ∈ s, (g e).grappling_dbref
      = if e.char = G.char then none else e.grappling_dbref)
    (hgb : ∀ e ∈ s, (g e).grappled_by_dbref = e.grappled_by_dbref) :
    ∀ a ∈ s, ∀ b ∈ s,
      ((g a).grappling_dbref = some b.char ↔
       (g b).grappled_by_dbref = some a.char) := by
  intro a ha b hb
  rw [hgr a ha, hgb b hb]
  by_cases haG : a.char = G.char
  · rw [if_pos haG]
    constructor
    · intro h
      exact absurd h (by simp)
    · intro h
      have haG2 : a = G := entry_unique hnd ha hG haG
      have h2 := (hsym a ha b hb).mpr h
      rw [haG2, hGl] at h2
      exact absurd (Option.some.inj h2).symm (hnoV b hb)
  · rw [if_neg haG]
    exact hsym a ha b hb

/-- `break_grapple`, when invoked with a linked grappler and victim pair,
preserves symmetry. -/
theorem break_grapple_symmetric (s : List Entry) (G V : Nat)
    (hnd : (s.map Entry.char).Nodup) (hsym : grappleSymmetric s)
    (ge : Entry) (hge : findEntry s G = some ge)
    (hgl : ge.grappling_dbref = some V) :
    grappleSymmetric (grappling.break_grapple s (some G) (some V)).2 := by
  have hmge := findEntry_mem hge
  have hgec := findEntry_char hge
  have hbrk : (grappling.break_grapple s (some G) (some V)).2
      = s.map (fun e =>
          let e1 := if e.char = G ∧ e.grappling_dbref ≠ none then
            { e with grappling_dbref := none } else e
          if e1.char = V ∧ e1.grappled_by_dbref ≠ none then
            { e1 with grappled_by_dbref := none } else e1) := by
    simp [grappling.break_grapple]
  rw [hbrk]
  have hgr : ∀ e ∈ s, ((fun e =>
      let e1 := if e.char = G ∧ e.grappling_dbref ≠ none then
        { e with grappling_dbref := none } else e
      if e1.char = V ∧ e1.grappled_by_dbref ≠ none then
        { e1 with grappled_by_dbref := none } else e1) e).grappling_dbref
      = if e.char = ge.char then none else e.grappling_dbref := by
    intro e _
    rw [hgec]
    by_cases h1 : e.char = G <;> by_cases h2 : e.grappling_dbref = none <;>
      simp [h1, h2] <;> split <;> simp_all
  have hgb : ∀ e ∈ s, ((fun e =>
      let e1 := if e.char = G ∧ e.grappling_dbref ≠ none then
        { e with grappling_dbref := none } else e
      if e1.char = V ∧ e1.grappled_by_dbref ≠ none then
        { e1 with grappled_by_dbref := none } else e1) e).grappled_by_dbref
      = if e.char = V then none else e.grappled_by_dbref := by
    intro e _
    by_cases h1 : e.char = V <;> by_cases h2 : e.grappled_by_dbref = none <;>
      simp [h1, h2] <;> split <;> simp_all
  cases hve : findEntry s V with
  | some ve =>
    have hmve := findEntry_mem hve
    have hvec := findEntry_char hve
    have hGl2 : ge.grappling_dbref = some ve.char := by rw [hgl, hvec]
    have hVl : ve.grappled_by_dbref = some ge.char :=
      (hsym ge hmge ve hmve).mp hGl2
    apply grappleSymmetric_map
    · intro e
      by_cases h1 : e.char = G <;> by_cases h2 : e.grappling_dbref = none <;>
        simp [h1, h2] <;> split <;> simp_all
    · refine pointwise_unlink hnd hsym hmge hmve hGl2 hVl hgr ?_
      intro e he
      rw [hvec]
      exact hgb e he
  | none =>
    have hnoV : ∀ b ∈ s, b.char ≠ V := findEntry_eq_none.mp hve
    apply grappleSymmetric_map
    · intro e
      by_cases h1 : e.char = G <;> by_cases h2 : e.grappling_dbref = none <;>
        simp [h1, h2] <;> split <;> simp_all
    · refine pointwise_unlink_noV hnd hsym hmge hgl hnoV hgr ?_
      intro e he
      rw [hgb e he, if_neg (hnoV e he)]

theorem cleanup_grappling_check_char (w : World) (e : Entry) :
    (grappling.cleanup_grappling_check w e).char = e.char := by
  cases h : e.grappling_dbref with
  | none => simp [grappling.cleanup_grappling_check, h]
  | some x =>
    simp only [grappling.cleanup_grappling_check, h]
    cases h2 : grappling.get_character_by_dbref w (some x) with
    | none => simp [h2]
    | some t =>
      dsimp only
      split <;> rfl

theorem cleanup_grappling_check_gby (w : World) (e : Entry) :
    (grappling.cleanup_grappling_check w e).grappled_by_dbref
      = e.grappled_by_dbref := by
  cases h : e.grappling_dbref with
  | none => simp [grappling.cleanup_grappling_check, h]
  | some x =>
    simp only [grappling.cleanup_grappling_check, h]
    cases h2 : grappling.get_character_by_dbref w (some x) with
    | none => simp [h2]
    | some t =>
      dsimp only
      split <;> rfl

theorem cleanup_grappled_by_check_char (w : World) (e : Entry) :
    (grappling.cleanup_grappled_by_check w e).char = e.char := by
  cases h : e.grappled_by_dbref with
  | none => simp [grappling.cleanup_grappled_by_check, h]
  | some x =>
    simp only [grappling.cleanup_grappled_by_check, h]
    cases h2 : grappling.get_character_by_dbref w (some x) with
    | none => simp [h2]
    | some t =>
      dsimp only
      split <;> rfl

theorem cleanup_grappled_by_check_grap (w : World) (e : Entry) :
    (grappling.cleanup_grappled_by_check w e).grappling_dbref
      = e.grappling_dbref := by
  cases h : e.grappled_by_dbref with
  | none => simp [grappling.cleanup_grappled_by_check, h]
  | some x =>
    simp only [grappling.cleanup_grappled_by_check, h]
    cases h2 : grappling.get_character_by_dbref w (some x) with
    | none => simp [h2]
    | some t =>
      dsimp only
      split <;> rfl

theorem cleanup_grappling_check_eq_some (w : World) (e : Entry) (c : Nat) :
    (grappling.cleanup_grappling_check w e).grappling_dbref = some c ↔
    (e.grappling_dbref = some c ∧
     grappling.get_character_by_dbref w (some c) = some c ∧
     w.location c = w.location e.char) := by
  cases h : e.grappling_dbref with
  | none => simp [grappling.cleanup_grappling_check, h]
  | some x =>
    simp only [grappling.cleanup_grappling_check, h]
    cases h2 : grappling.get_character_by_dbref w (some x) with
    | none =>
      dsimp only
      constructor
      · intro hcon
        exact absurd hcon (by simp)
      · rintro ⟨hxc, hres2, _⟩
        have hx := Option.some.inj hxc
        rw [hx] at h2
        rw [h2] at hres2
        exact Option.noConfusion hres2
    | some t =>
      dsimp only
      obtain ⟨hxt, _, _⟩ := get_character_by_dbref_eq h2
      have hxt2 : x = t := Option.some.inj hxt
      by_cases h3 : w.location t ≠ w.location e.char
      · rw [if_pos h3]
        constructor
        · intro hcon
          exact absurd hcon (by simp)
        · rintro ⟨hxc, _, hloc⟩
          have hx := Option.some.inj hxc
          rw [← hxt2, hx] at h3
          exact absurd hloc h3
      · rw [if_neg h3]
        push_neg at h3
        constructor
        · intro hcon
          have hcon2 : some x = some c := by rw [← h]; exact hcon
          have hx : x = c := Option.some.inj hcon2
          refine ⟨hcon2, ?_, ?_⟩
          · rw [← hx, h2, hxt2]
          · rw [← hx, hxt2]
            exact h3
        · rintro ⟨hxc, _, _⟩
          rw [h]
          exact hxc

theorem cleanup_grappled_by_check_eq_some (w : World) (e : Entry) (c : Nat) :
    (grappling.cleanup_grappled_by_check w e).grappled_by_dbref = some c ↔
    (e.grappled_by_dbref = some c ∧
     grappling.get_character_by_dbref w (some c) = some c ∧
     w.location c = w.location e.char) := by
  cases h : e.grappled_by_dbref with
  | none => simp [grappling.cleanup_grappled_by_check, h]
  | some x =>
    simp only [grappling.cleanup_grappled_by_check, h]
    cases h2 : grappling.get_character_by_dbref w (some x) with
    | none =>
      dsimp only
      constructor
      · intro hcon
        exact absurd hcon (by simp)
      · rintro ⟨hxc, hres2, _⟩
        have hx := Option.some.inj hxc
        rw [hx] at h2
        rw [h2] at hres2
        exact Option.noConfusion hres2
    | some t =>
      dsimp only
      obtain ⟨hxt, _, _⟩ := get_character_by_dbref_eq h2
      have hxt2 : x = t := Option.some.inj hxt
      by_cases h3 : w.location t ≠ w.location e.char
      · rw [if_pos h3]
        constructor
        · intro hcon
          exact absurd hcon (by simp)
        · rintro ⟨hxc, _, hloc⟩
          have hx := Option.some.inj hxc
          rw [← hxt2, hx] at h3
          exact absurd hloc h3
      · rw [if_neg h3]
        push_neg at h3
        constructor
        · intro hcon
          have hcon2 : some x = some c := by rw [← h]; exact hcon
          have hx : x = c := Option.some.inj hcon2
          refine ⟨hcon2, ?_, ?_⟩
          · rw [← hx, h2, hxt2]
          · rw [← hx, hxt2]
            exact h3
        · rintro ⟨hxc, _, _⟩
          rw [h]
          exact hxc

/-- The stale-reference cleanup pass preserves symmetry on a valid roster:
for roster-resident pairs the two location conditions agree, so either both
sides of a link are kept or both are cleared. -/
theorem cleanup_invalid_grapples_symmetric (w : World) (s : List Entry)
    (hval : rosterValid w s) (hsym : grappleSymmetric s) :
    grappleSymmetric (grappling.cleanup_invalid_grapples w s) := by
  apply grappleSymmetric_map
  · intro e
    rw [cleanup_grappled_by_check_char, cleanup_grappling_check_char]
  · intro a ha b hb
    have hra : grappling.get_character_by_dbref w (some a.char) = some a.char
      := by simp [grappling.get_character_by_dbref, (hval a ha).1,
        (hval a ha).2]
    have hrb : grappling.get_character_by_dbref w (some b.char) = some b.char
      := by simp [grappling.get_character_by_dbref, (hval b hb).1,
        (hval b hb).2]
    constructor
    · intro h
      rw [cleanup_grappled_by_check_grap,
        cleanup_grappling_check_eq_some] at h
      obtain ⟨h1, _, h3⟩ := h
      refine (cleanup_grappled_by_check_eq_some w _ _).mpr ⟨?_, hra, ?_⟩
      · rw [cleanup_grappling_check_gby]
        exact (hsym a ha b hb).mp h1
      · rw [cleanup_grappling_check_char]
        exact h3.symm
    · intro h
      rw [cleanup_grappled_by_check_eq_some] at h
      obtain ⟨h1, _, h3⟩ := h
      rw [cleanup_grappling_check_gby] at h1
      rw [cleanup_grappling_check_char] at h3
      rw [cleanup_grappled_by_check_grap]
      refine (cleanup_grappling_check_eq_some w _ _).mpr
        ⟨(hsym a ha b hb).mpr h1, hrb, h3.symm⟩

/-! ## Claim theorems on grapple resolution -/

/-- C8: resolving a release by a character currently grappling a victim that
is in the session always succeeds: the releaser's grappling reference and
the victim's grappled-by reference are both cleared, and every other field
of both entries — in particular both yielding flags — and every other
entry of the roster are left unchanged. -/
theorem release_grapple_clears_both_sides :
    ∀ (w : World) (s : List Entry) (a v : Nat) (ae ve : Entry),
      findEntry s a = some ae → ae.grappling_dbref = some v → v ≠ 0 →
      v ∈ w.chars → findEntry s v = some ve → a ≠ v →
      findEntry (grappling.resolve_release_grapple w a s) a
          = some { ae with grappling_dbref := none } ∧
      findEntry (grappling.resolve_release_grapple w a s) v
          = some { ve with grappled_by_dbref := none } ∧
      (∀ c : Nat, c ≠ a → c ≠ v →
        findEntry (grappling.resolve_release_grapple w a s) c
          = findEntry s c) := by
  intro w s a v ae ve hae hgr hv0 hvc hve hav
  have hres : grappling.resolve_release_grapple w a s
      = upd (upd s a (fun e => { e with grappling_dbref := none })) v
          (fun e => { e with grappled_by_dbref := none }) := by
    simp [grappling.resolve_release_grapple, hae, hgr,
      grappling.get_character_by_dbref, hv0, hvc, hve]
  rw [hres]
  refine ⟨?_, ?_, ?_⟩
  · rw [findEntry_upd_other
      (fun e => { e with grappled_by_dbref := none }) (fun x => rfl) hav]
    exact findEntry_upd_self
      (fun e => { e with grappling_dbref := none }) (fun x => rfl) hae
  · have h1 : findEntry
        (upd s a (fun e => { e with grappling_dbref := none })) v = some ve := by
      rw [findEntry_upd_other
        (fun e => { e with grappling_dbref := none }) (fun x => rfl)
        (fun h => hav h.symm)]
      exact hve
    exact findEntry_upd_self
      (fun e => { e with grappled_by_dbref := none }) (fun x => rfl) h1
  · intro c hca hcv
    rw [findEntry_upd_other
        (fun e => { e with grappled_by_dbref := none }) (fun x => rfl) hcv,
      findEntry_upd_other
        (fun e => { e with grappling_dbref := none }) (fun x => rfl) hca]

/-- Witness for C8 at a concrete input: character 1 releases character 2;
both link directions clear, the victim's entry is otherwise untouched. -/
theorem release_grapple_clears_both_sides_witness :
    findEntry (grappling.resolve_release_grapple w0 1
        [{ char := 1, grappling_dbref := some 2, is_yielding := true },
         { char := 2, grappled_by_dbref := some 1 }]) 2
      = some { char := 2 } :=
  (release_grapple_clears_both_sides w0
    [{ char := 1, grappling_dbref := some 2, is_yielding := true },
     { char := 2, grappled_by_dbref := some 1 }]
    1 2 { char := 1, grappling_dbref := some 2, is_yielding := true }
    { char := 2, grappled_by_dbref := some 1 }
    (by decide) rfl (by decide) (by decide) (by decide) (by decide)).2.1

/-- C4: resolving a grapple-initiate between an attacker and an in-session
target with proximity established: the attacker wins exactly when its roll
strictly exceeds the defender's (ties favor the defender).  On success the
attacker's entry gains the target as grappling reference and its yielding
flag becomes true (its other fields unchanged), while the target's entry
gains the attacker as grappled-by reference and as target, every other
field — in particular the yielding flag, which stays false for a
non-yielding victim — left unchanged; on failure no grapple reference of
any entry changes. -/
theorem grapple_initiate_resolution :
    ∀ (w : World) (s : List Entry) (a t : Nat) (ae te : Entry)
      (rollA rollD : Nat),
      findEntry s a = some ae → ae.target_dbref = some t → t ∈ w.chars →
      findEntry s t = some te → t ∈ w.prox a → a ≠ t →
      (rollD < rollA →
        findEntry (grappling.resolve_grapple_initiate w a rollA rollD s) a
          = some { ae with grappling_dbref := some t, is_yielding := true } ∧
        findEntry (grappling.resolve_grapple_initiate w a rollA rollD s) t
          = some { te with grappled_by_dbref := some a,
                           target_dbref := some a }) ∧
      (¬ rollD < rollA →
        ∀ c : Nat,
          (findEntry (grappling.resolve_grapple_initiate w a rollA rollD s)
              c).map Entry.grappling_dbref
            = (findEntry s c).map Entry.grappling_dbref ∧
          (findEntry (grappling.resolve_grapple_initiate w a rollA rollD s)
              c).map Entry.grappled_by_dbref
            = (findEntry s c).map Entry.grappled_by_dbref) := by
  intro w s a t ae te rollA rollD hae htgt htc hte hprox hat
  constructor
  · intro hlt
    have hres : grappling.resolve_grapple_initiate w a rollA rollD s
        = upd (upd (upd (upd s a
            (fun e => { e with grappling_dbref := some t })) t
            (fun e => { e with grappled_by_dbref := some a })) t
            (fun e => { e with target_dbref := some a })) a
            (fun e => { e with is_yielding := true }) := by
      simp [grappling.resolve_grapple_initiate, hae, htgt,
        combat_utils.get_character_by_dbref, htc, hte, hprox, hlt]
    rw [hres]
    constructor
    · have h1 : findEntry (upd (upd (upd s a
          (fun e => { e with grappling_dbref := some t })) t
          (fun e => { e with grappled_by_dbref := some a })) t
          (fun e => { e with target_dbref := some a })) a
          = some { ae with grappling_dbref := some t } := by
        rw [findEntry_upd_other
            (fun e => { e with target_dbref := some a }) (fun x => rfl) hat,
          findEntry_upd_other
            (fun e => { e with grappled_by_dbref := some a })
            (fun x => rfl) hat]
        exact findEntry_upd_self
          (fun e => { e with grappling_dbref := some t }) (fun x => rfl) hae
      exact findEntry_upd_self
        (fun e => { e with is_yielding := true }) (fun x => rfl) h1
    · have h1 : findEntry (upd s a
          (fun e => { e with grappling_dbref := some t })) t = some te := by
        rw [findEntry_upd_other
          (fun e => { e with grappling_dbref := some t }) (fun x => rfl)
          (fun h => hat h.symm)]
        exact hte
      have h2 : findEntry (upd (upd s a
          (fun e => { e with grappling_dbref := some t })) t
          (fun e => { e with grappled_by_dbref := some a })) t
          = some { te with grappled_by_dbref := some a } :=
        findEntry_upd_self
          (fun e => { e with grappled_by_dbref := some a }) (fun x => rfl) h1
      have h3 : findEntry (upd (upd (upd s a
          (fun e => { e with grappling_dbref := some t })) t
          (fun e => { e with grappled_by_dbref := some a })) t
          (fun e => { e with target_dbref := some a })) t
          = some { te with grappled_by_dbref := some a,
                           target_dbref := some a } :=
        findEntry_upd_self
          (fun e => { e with target_dbref := some a }) (fun x => rfl) h2
      rw [findEntry_upd_other
        (fun e => { e with is_yielding := true }) (fun x => rfl)
        (fun h => hat h.symm)]
      exact h3
  · intro hnlt c
    have hres : grappling.resolve_grapple_initiate w a rollA rollD s
        = if ae.initiated_combat then
            upd (upd s a (fun e => { e with is_yielding := true })) t
              (fun e => { e with is_yielding := true })
          else s := by
      simp [grappling.resolve_grapple_initiate, hae, htgt,
        combat_utils.get_character_by_dbref, htc, hte, hprox, hnlt]
    rw [hres]
    by_cases hic : ae.initiated_combat
    · rw [if_pos hic]
      by_cases hct : c = t
      · subst hct
        have h1 : findEntry (upd s a
            (fun e => { e with is_yielding := true })) c = some te := by
          rw [findEntry_upd_other
            (fun e => { e with is_yielding := true }) (fun x => rfl)
            (fun h => hat h.symm)]
          exact hte
        rw [findEntry_upd_self
          (fun e => { e with is_yielding := true }) (fun x => rfl) h1, hte]
        exact ⟨rfl, rfl⟩
      · rw [findEntry_upd_other
          (fun e => { e with is_yielding := true }) (fun x => rfl) hct]
        by_cases hca : c = a
        · subst hca
          rw [findEntry_upd_self
            (fun e => { e with is_yielding := true }) (fun x => rfl) hae, hae]
          exact ⟨rfl, rfl⟩
        · rw [findEntry_upd_other
            (fun e => { e with is_yielding := true }) (fun x => rfl) hca]
          exact ⟨rfl, rfl⟩
    · rw [if_neg hic]
      exact ⟨rfl, rfl⟩

/-- Witness for C4 at a concrete input: fixed rolls attacker 9 versus
defender 1 make the grapple succeed — the attacker becomes yielding and the
victim's entry records the attacker as its grappler. -/
theorem grapple_initiate_resolution_witness :
    findEntry (grappling.resolve_grapple_initiate w0 1 9 1
        [{ char := 1, target_dbref := some 2 }, { char := 2 }]) 1
      = some { char := 1, target_dbref := some 2, grappling_dbref := some 2,
               is_yielding := true } ∧
    findEntry (grappling.resolve_grapple_initiate w0 1 9 1
        [{ char := 1, target_dbref := some 2 }, { char := 2 }]) 2
      = some { char := 2, grappled_by_dbref := some 1,
               target_dbref := some 1 } :=
  (grapple_initiate_resolution w0
    [{ char := 1, target_dbref := some 2 }, { char := 2 }] 1 2
    { char := 1, target_dbref := some 2 } { char := 2 } 9 1
    (by decide) rfl (by decide) (by decide) (by decide) (by decide)).1
    (by decide)

/-! ## C1: grapple symmetry - counterexample and amended invariant -/

/-- On a list whose member characters include `x`, `findIdx?` locates an
entry carrying character `x`. -/
theorem findIdx_char_of_mem {x : Nat} :
    ∀ {s : List Entry}, x ∈ s.map Entry.char →
      ∃ j te, s.findIdx? (fun y => y.char == x) = some j ∧
        s.get? j = some te ∧ te.char = x := by
  intro s
  induction s with
  | nil => intro h; simp at h
  | cons e t ih =>
    intro h
    by_cases hx : e.char = x
    · refine ⟨0, e, ?_, rfl, hx⟩
      rw [List.findIdx?_cons]
      simp [hx]
    · have h2 : x = e.char ∨ ∃ a ∈ t, a.char = x := by simpa using h
      have hxt : x ∈ t.map Entry.char := by
        rcases h2 with h1 | ⟨a, ha, hac⟩
        · exact absurd h1.symm hx
        · exact List.mem_map.mpr ⟨a, ha, hac⟩
      obtain ⟨j, te, hfi, hget, hc⟩ := ih hxt
      refine ⟨j + 1, te, ?_, hget, hc⟩
      rw [List.findIdx?_cons, if_neg (by simp [hx]), List.findIdx?_succ, hfi]
      rfl

/-- On a symmetric roster whose grapple references all resolve, stay inside
the roster and avoid self-reference, one iteration of the validation loop
changes nothing: every guard of `validate_and_cleanup_grapple_state` passes
and every repair branch is skipped. -/
theorem validate_entry_pass_id {w : World} {s : List Entry}
    (hsym : grappleSymmetric s) (href : validRefs w s) (i : Nat) :
    grappling.validate_entry_pass w (s.map Entry.char) s i = s := by
  cases hei : s.get? i with
  | none => simp only [grappling.validate_entry_pass, hei]
  | some e =>
    have he : e ∈ s := List.get?_mem hei
    have hei2 : s[i]? = some e := by rw [← List.get?_eq_getElem?]; exact hei
    cases hg : e.grappling_dbref with
    | none =>
      cases hb : e.grappled_by_dbref with
      | none => simp [grappling.validate_entry_pass, hei2, hg, hb]
      | some gr =>
        obtain ⟨hb0, hbw, hbne, hbmem⟩ := (href e he).2 gr hb
        have hres2 : grappling.get_character_by_dbref w (some gr) = some gr := by
          simp [grappling.get_character_by_dbref, hb0, hbw]
        obtain ⟨j2, ge2, hj2, hjt2, hct2⟩ := findIdx_char_of_mem hbmem
        have hge : ge2 ∈ s := List.get?_mem hjt2
        have hjt4 : s[j2]? = some ge2 := by
          rw [← List.get?_eq_getElem?]; exact hjt2
        have hgl : ge2.grappling_dbref = some e.char :=
          (hsym ge2 hge e he).mpr (by rw [hb, hct2])
        have hnall2 : ¬ ∀ x ∈ s, ¬ x.char = gr := fun hall => hall ge2 hge hct2
        simp [grappling.validate_entry_pass, hei2, hg, hb, hres2, hj2, hjt4,
          hbne, hnall2, hgl]
    | some gt =>
      obtain ⟨hg0, hgw, hgne, hgmem⟩ := (href e he).1 gt hg
      have hres : grappling.get_character_by_dbref w (some gt) = some gt := by
        simp [grappling.get_character_by_dbref, hg0, hgw]
      obtain ⟨j, te, hj, hjt, hct⟩ := findIdx_char_of_mem hgmem
      have hte : te ∈ s := List.get?_mem hjt
      have hjt3 : s[j]? = some te := by rw [← List.get?_eq_getElem?]; exact hjt
      have hgb : te.grappled_by_dbref = some e.char :=
        (hsym e he te hte).mp (by rw [hg, hct])
      have hnall : ¬ ∀ x ∈ s, ¬ x.char = gt := fun hall => hall te hte hct
      cases hb : e.grappled_by_dbref with
      | none =>
        simp [grappling.validate_entry_pass, hei2, hg, hb, hres, hj, hjt3,
          hgne, hnall, hgb]
      | some gr =>
        obtain ⟨hb0, hbw, hbne, hbmem⟩ := (href e he).2 gr hb
        have hres2 : grappling.get_character_by_dbref w (some gr) = some gr := by
          simp [grappling.get_character_by_dbref, hb0, hbw]
        obtain ⟨j2, ge2, hj2, hjt2, hct2⟩ := findIdx_char_of_mem hbmem
        have hge : ge2 ∈ s := List.get?_mem hjt2
        have hjt4 : s[j2]? = some ge2 := by
          rw [← List.get?_eq_getElem?]; exact hjt2
        have hgl : ge2.grappling_dbref = some e.char :=
          (hsym ge2 hge e he).mpr (by rw [hb, hct2])
        have hnall2 : ¬ ∀ x ∈ s, ¬ x.char = gr := fun hall => hall ge2 hge hct2
        simp [grappling.validate_entry_pass, hei2, hg, hb, hres, hj, hjt3,
          hres2, hj2, hjt4, hgne, hnall, hbne, hnall2, hgb, hgl]

/-- Folding identity passes over any index list is the identity. -/
theorem foldl_validate_pass_id {w : World} {v : List Nat} {s : List Entry}
    (h : ∀ i, grappling.validate_entry_pass w v s i = s) :
    ∀ l : List Nat, l.foldl (grappling.validate_entry_pass w v) s = s := by
  intro l
  induction l with
  | nil => rfl
  | cons a t ih =>
    rw [List.foldl_cons, h a]
    exact ih

/-- The full validation pass fixes every symmetric roster whose references
are valid: it repairs nothing because nothing needs repair. -/
theorem validate_cleanup_id {w : World} {s : List Entry}
    (hsym : grappleSymmetric s) (href : validRefs w s) :
    grappling.validate_and_cleanup_grapple_state w s = s := by
  show (List.range s.length).foldl
    (grappling.validate_entry_pass w (s.map Entry.char)) s = s
  exact foldl_validate_pass_id (fun i => validate_entry_pass_id hsym href i) _

/-- C1 counterexample: the literal claim — that every grapple-state update
leaves the `A.grappling == B ⇔ B.grappled_by == A` cross-reference symmetry
intact — is false.  From a symmetric, fully valid two-man roster in which
character 1 already grapples character 2 and targets it, a winning
`resolve_grapple_join` by character 1 (a self-contest: the challenger is
already the current grappler) first writes `grappling = 2` and then, finding
the "old" grappler 1, overwrites the same entry with `grappling = None`
while still setting `grappled_by = 1` on the victim, leaving the roster
asymmetric. -/
theorem grapple_symmetry_counterexample :
    grappleSymmetric
      [{ char := 1, target_dbref := some 2, grappling_dbref := some 2,
         is_yielding := true },
       { char := 2, target_dbref := some 1, grappled_by_dbref := some 1 }] ∧
    ¬ grappleSymmetric
      (grappling.resolve_grapple_join w0 1 2 1
        [{ char := 1, target_dbref := some 2, grappling_dbref := some 2,
           is_yielding := true },
         { char := 2, target_dbref := some 1,
           grappled_by_dbref := some 1 }]) := by
  constructor
  · decide
  · decide

/-- C1 (amended): on a roster with distinct characters the grapple
cross-reference symmetry `A.grappling == B ⇔ B.grappled_by == A` is
preserved by every grapple-state update that excludes the self-contest
degenerate case: unconditionally by `resolve_release_grapple`; by
`establish_grapple` and `cleanup_invalid_grapples` whenever the roster's
characters are live; by `break_grapple` on a linked grappler/victim pair;
by `resolve_grapple_initiate` when the attacker holds nobody and the live
target is held by nobody; by `resolve_grapple_join` when the challenger is
distinct from the target and from the current live grappler and holds
nobody; and `validate_and_cleanup_grapple_state` returns a symmetric
valid-reference roster unchanged (it cannot, however, repair every
asymmetric state, and a self-contest join does break symmetry). -/
theorem grapple_symmetry_invariant (w : World) (s : List Entry)
    (hnd : (s.map Entry.char).Nodup) (hsym : grappleSymmetric s) :
    (∀ a, grappleSymmetric (grappling.resolve_release_grapple w a s)) ∧
    (rosterValid w s →
      ∀ gc v, grappleSymmetric (grappling.establish_grapple w s gc v).2) ∧
    (rosterValid w s →
      grappleSymmetric (grappling.cleanup_invalid_grapples w s)) ∧
    (validRefs w s → grappling.validate_and_cleanup_grapple_state w s = s) ∧
    (∀ G V ge, findEntry s G = some ge → ge.grappling_dbref = some V →
      grappleSymmetric (grappling.break_grapple s (some G) (some V)).2) ∧
    (∀ a rollA rollD ae te t, findEntry s a = some ae →
      ae.target_dbref = some t → t ∈ w.chars → findEntry s t = some te →
      a ≠ t → ae.grappling_dbref = none → te.grappled_by_dbref = none →
      grappleSymmetric (grappling.resolve_grapple_initiate w a rollA rollD s)) ∧
    (∀ a rollN rollC ae te oe t gOld, findEntry s a = some ae →
      ae.target_dbref = some t → t ∈ w.chars → findEntry s t = some te →
      te.grappled_by_dbref = some gOld → gOld ≠ 0 → gOld ∈ w.chars →
      findEntry s gOld = some oe → a ≠ t → gOld ≠ a → gOld ≠ t →
      ae.grappling_dbref = none →
      grappleSymmetric (grappling.resolve_grapple_join w a rollN rollC s)) := by
  refine ⟨fun a => release_grapple_symmetric w a s hnd hsym,
    fun hval gc v => establish_grapple_symmetric w s gc v hnd hval hsym,
    fun hval => cleanup_invalid_grapples_symmetric w s hval hsym,
    fun href => validate_cleanup_id hsym href,
    fun G V ge hge hgl => break_grapple_symmetric s G V hnd hsym ge hge hgl,
    fun a rollA rollD ae te t hae htgt htc hte hat hga htb =>
      initiate_grapple_symmetric w a rollA rollD s ae te t hnd hsym hae htgt
        htc hte hat hga htb,
    fun a rollN rollC ae te oe t gOld hae htgt htc hte hgb hg0 hgc hoe hat
        hao hot hga =>
      join_grapple_symmetric w a rollN rollC s ae te oe t gOld hnd hsym hae
        htgt htc hte hgb hg0 hgc hoe hat hao hot hga⟩

/-- Witness for the amended C1 at a concrete input: on the symmetric roster
where character 1 grapples character 2, releasing the grapple leaves the
invariant intact, and the validation pass returns the roster unchanged. -/
theorem grapple_symmetry_invariant_witness :
    (([{ char := 1, grappling_dbref := some 2, is_yielding := true },
       { char := 2, grappled_by_dbref := some 1 }] :
        List Entry).map Entry.char).Nodup ∧
    grappleSymmetric
      [{ char := 1, grappling_dbref := some 2, is_yielding := true },
       { char := 2, grappled_by_dbref := some 1 }] ∧
    grappleSymmetric
      (grappling.resolve_release_grapple w0 1
        [{ char := 1, grappling_dbref := some 2, is_yielding := true },
         { char := 2, grappled_by_dbref := some 1 }]) ∧
    grappling.validate_and_cleanup_grapple_state w0
      [{ char := 1, grappling_dbref := some 2, is_yielding := true },
       { char := 2, grappled_by_dbref := some 1 }]
      = [{ char := 1, grappling_dbref := some 2, is_yielding := true },
         { char := 2, grappled_by_dbref := some 1 }] :=
  ⟨by decide, by decide,
    (grapple_symmetry_invariant w0
      [{ char := 1, grappling_dbref := some 2, is_yielding := true },
       { char := 2, grappled_by_dbref := some 1 }]
      (by decide) (by decide)).1 1,
    (grapple_symmetry_invariant w0
      [{ char := 1, grappling_dbref := some 2, is_yielding := true },
       { char := 2, grappled_by_dbref := some 1 }]
      (by decide) (by decide)).2.2.2.1
      (by
        intro e he
        fin_cases he <;>
          exact ⟨fun x hx => by simp_all [w0] <;> omega,
            fun x hx => by simp_all [w0] <;> omega⟩)⟩
